import Mathlib

/-
Verification of the region-selection state machine, capture-history
navigator and magnifier clamp of `screen_capture_tool.py`.

The Python class `ScreenCaptureApp` is embedded shallowly: the mutable
attributes that the selection state machine and history navigator read or
write become fields of `AppState`, and every event handler becomes a pure
function `AppState → ... → AppState`.  Rendering, clipboard, file-dialog
and window operations are side effects with no influence on the modelled
state and are dropped; the write-only attributes `move_start_x/y` and
`resize_start_x/y` (assigned but never read in the source) are omitted.
Coordinates are `Int` (Python ints are unbounded).
-/

namespace ScreenCapture

/-- Mode strings used by the source: the eight resize handles
(`'tl'`, `'tr'`, `'bl'`, `'br'`, `'left'`, `'right'`, `'top'`, `'bottom'`)
plus `'inside'`. -/
inductive Mode where
  | tl | tr | bl | br | left | right | top | bottom | inside
deriving DecidableEq, Repr

/-- Arrow keys handled by `on_arrow_key` (`event.keysym`). -/
inductive Arrow where
  | left | right | up | down
deriving DecidableEq, Repr

/-- The state of `ScreenCaptureApp` that the selection state machine and
history navigator read or write.  `startP`/`endP` bundle
`start_x`,`start_y` and `end_x`,`end_y`: the source always assigns each
pair together (`on_mouse_up` clears only `start_x`,`start_y` on discard,
which is why the two pairs are separate options).  `capture_history`
holds `(x1, y1, x2, y2)` tuples and `capture_history_index` is the
cursor, `-1` meaning unset. -/
structure AppState where
  startP : Option (Int × Int)
  endP : Option (Int × Int)
  is_selecting : Bool
  is_resizing : Bool
  is_moving : Bool
  resize_mode : Option Mode
  region_selected : Bool
  move_offset : Option (Int × Int)
  last_adjust_mode : Mode
  capture_history : List (Int × Int × Int × Int)
  capture_history_index : Int
  show_info : Bool
  is_active : Bool
deriving DecidableEq, Repr

/-- Pixel threshold for handle detection (`self.resize_threshold = 10`). -/
def resize_threshold : Int := 10

/-- The `min`/`max` normalization the source repeats before every use of
the rectangle (`update_display`, `save_current_capture_position`,
`save_screenshot`, `copy_to_clipboard`, `get_resize_mode`, ...). -/
def normQuad (sx sy ex ey : Int) : Int × Int × Int × Int :=
  (min sx ex, min sy ey, max sx ex, max sy ey)

/-- The normalized rectangle a consumer (overlay render, history commit,
capture crop) would see in a given state: `update_display`,
`save_current_capture_position` and the crop in
`save_screenshot`/`copy_to_clipboard` all recompute exactly
`(min start end, ..., max start end, ...)` from the raw points. -/
def exposedRegion (s : AppState) : Option (Int × Int × Int × Int) :=
  match s.startP, s.endP with
  | some (sx, sy), some (ex, ey) => some (normQuad sx sy ex ey)
  | _, _ => none

/-- Handle classification `get_resize_mode(x, y)`: corners first in order
tl, tr, bl, br, then edges left/right/top/bottom (edge tests also require
the point to lie within the perpendicular span), then containment. -/
def get_resize_mode (s : AppState) (x y : Int) : Option Mode :=
  if s.region_selected = false then none else
  match s.startP, s.endP with
  | some (sx, sy), some (ex, ey) =>
    let x1 := min sx ex
    let y1 := min sy ey
    let x2 := max sx ex
    let y2 := max sy ey
    let t := resize_threshold
    if |x - x1| ≤ t ∧ |y - y1| ≤ t then some Mode.tl
    else if |x - x2| ≤ t ∧ |y - y1| ≤ t then some Mode.tr
    else if |x - x1| ≤ t ∧ |y - y2| ≤ t then some Mode.bl
    else if |x - x2| ≤ t ∧ |y - y2| ≤ t then some Mode.br
    else if |x - x1| ≤ t ∧ y1 ≤ y ∧ y ≤ y2 then some Mode.left
    else if |x - x2| ≤ t ∧ y1 ≤ y ∧ y ≤ y2 then some Mode.right
    else if |y - y1| ≤ t ∧ x1 ≤ x ∧ x ≤ x2 then some Mode.top
    else if |y - y2| ≤ t ∧ x1 ≤ x ∧ x ≤ x2 then some Mode.bottom
    else if x1 ≤ x ∧ x ≤ x2 ∧ y1 ≤ y ∧ y ≤ y2 then some Mode.inside
    else none
  | _, _ => none

/-- Condition under which `resize_selection` reassigns `x1`
(`'left' in mode or mode == 'tl' or mode == 'bl'`; the substring test
`'left' in mode` only matches the mode string `'left'` itself). -/
def movesX1 (m : Mode) : Bool := m = Mode.left || m = Mode.tl || m = Mode.bl

/-- Condition under which `resize_selection` reassigns `x2`. -/
def movesX2 (m : Mode) : Bool := m = Mode.right || m = Mode.tr || m = Mode.br

/-- Condition under which `resize_selection` reassigns `y1`. -/
def movesY1 (m : Mode) : Bool := m = Mode.top || m = Mode.tl || m = Mode.tr

/-- Condition under which `resize_selection` reassigns `y2`. -/
def movesY2 (m : Mode) : Bool := m = Mode.bottom || m = Mode.bl || m = Mode.br

/-- `resize_selection(x, y)`: move the edge(s) named by `resize_mode` to
the pointer, reject the update if the resulting `abs` width or height is
below 10, otherwise store the new points. -/
def resize_selection (s : AppState) (x y : Int) : AppState :=
  match s.resize_mode with
  | none => s
  | some m =>
    match s.startP, s.endP with
    | some (sx, sy), some (ex, ey) =>
      let x1 := if movesX1 m then x else min sx ex
      let x2 := if movesX2 m then x else max sx ex
      let y1 := if movesY1 m then y else min sy ey
      let y2 := if movesY2 m then y else max sy ey
      if |x2 - x1| < 10 ∨ |y2 - y1| < 10 then s
      else { s with startP := some (x1, y1), endP := some (x2, y2) }
    | _, _ => s

/-- `move_selection(x, y)`: translate the rectangle keeping
`width = abs(end_x - start_x)` and `height = abs(end_y - start_y)`,
anchored at the pointer minus the offset recorded at Moving-start. -/
def move_selection (s : AppState) (x y : Int) : AppState :=
  if s.is_moving = false then s else
  match s.startP, s.endP, s.move_offset with
  | some (sx, sy), some (ex, ey), some (ox, oy) =>
    let width := |ex - sx|
    let height := |ey - sy|
    let new_x := x - ox
    let new_y := y - oy
    { s with startP := some (new_x, new_y),
             endP := some (new_x + width, new_y + height) }
  | _, _, _ => s

/-- `on_mouse_down(event)`: classify the point; `inside` starts Moving and
records the offset from the normalized top-left, a handle starts Resizing,
otherwise a fresh Selecting starts at the point. -/
def on_mouse_down (s : AppState) (x y : Int) : AppState :=
  match get_resize_mode s x y with
  | some Mode.inside =>
    match s.startP, s.endP with
    | some (sx, sy), some (ex, ey) =>
      { s with is_moving := true,
               move_offset := some (x - min sx ex, y - min sy ey),
               last_adjust_mode := Mode.inside }
    | _, _ => s
  | some m =>
    { s with is_resizing := true, resize_mode := some m,
             last_adjust_mode := m }
  | none =>
    { s with startP := some (x, y), endP := some (x, y),
             is_selecting := true, region_selected := false }

/-- `on_mouse_drag(event)`: dispatch on the current drag mode. -/
def on_mouse_drag (s : AppState) (x y : Int) : AppState :=
  if s.is_selecting then { s with endP := some (x, y) }
  else if s.is_resizing then resize_selection s x y
  else if s.is_moving then move_selection s x y
  else s

/-- `on_mouse_up(event)`: a Selecting release below the 10-px minimum
discards the selection (clearing `start_x`/`start_y` only), otherwise the
rectangle is retained as selected; Resizing/Moving just end. -/
def on_mouse_up (s : AppState) (x y : Int) : AppState :=
  if s.is_selecting then
    match s.startP with
    | some (sx, sy) =>
      if |x - sx| < 10 ∨ |y - sy| < 10 then
        { s with endP := some (x, y), is_selecting := false,
                 startP := none, region_selected := false }
      else
        { s with endP := some (x, y), is_selecting := false,
                 region_selected := true }
    | none => { s with endP := some (x, y), is_selecting := false }
  else if s.is_resizing then
    { s with is_resizing := false, resize_mode := none }
  else if s.is_moving then
    { s with is_moving := false }
  else s

/-- First index of `q` in the list, as computed by Python `list.index`
inside `save_current_capture_position` (`none` plays `ValueError`). -/
def indexOfQ (q : Int × Int × Int × Int) :
    List (Int × Int × Int × Int) → Option Nat
  | [] => none
  | c :: rest => if c = q then some 0
                 else (indexOfQ q rest).map (fun i => i + 1)

/-- `save_current_capture_position()`: normalize the active points; if the
tuple is already in the history move the cursor to its index, else append
it and point the cursor at the new last element. -/
def save_current_capture_position (s : AppState) : AppState :=
  match s.startP, s.endP with
  | some (sx, sy), some (ex, ey) =>
    let new_capture := normQuad sx sy ex ey
    match indexOfQ new_capture s.capture_history with
    | some existing_index =>
      { s with capture_history_index := (existing_index : Int) }
    | none =>
      { s with capture_history := s.capture_history ++ [new_capture],
               capture_history_index := (s.capture_history.length : Int) }
  | _, _ => s

/-- `restore_last_capture()`: on a non-empty history, reseat an unset
cursor to the last index, load the entry at the cursor as the active
selected region and report success. -/
def restore_last_capture (s : AppState) : AppState × Bool :=
  if s.capture_history = [] then (s, false)
  else
    let idx : Int :=
      if s.capture_history_index = -1 then
        (s.capture_history.length : Int) - 1
      else s.capture_history_index
    let e := s.capture_history.getD idx.toNat (0, 0, 0, 0)
    ({ s with capture_history_index := idx,
              startP := some (e.1, e.2.1),
              endP := some (e.2.2.1, e.2.2.2),
              region_selected := true,
              is_selecting := false }, true)

/-- `go_to_previous_capture()` (Backspace): wrap-around decrement of the
cursor and load of the target entry; no-op on an empty history. -/
def go_to_previous_capture (s : AppState) : AppState :=
  if s.capture_history = [] then s
  else
    let n : Int := s.capture_history.length
    let idx : Int :=
      if s.capture_history_index = -1 then n - 1
      else if s.capture_history_index > 0 then s.capture_history_index - 1
      else n - 1
    let e := s.capture_history.getD idx.toNat (0, 0, 0, 0)
    { s with capture_history_index := idx,
             startP := some (e.1, e.2.1),
             endP := some (e.2.2.1, e.2.2.2),
             region_selected := true,
             is_selecting := false }

/-- `go_to_next_capture()` (Tab): wrap-around increment of the cursor and
load of the target entry; no-op on an empty history. -/
def go_to_next_capture (s : AppState) : AppState :=
  if s.capture_history = [] then s
  else
    let n : Int := s.capture_history.length
    let idx : Int :=
      if s.capture_history_index = -1 then 0
      else if s.capture_history_index < n - 1 then s.capture_history_index + 1
      else 0
    let e := s.capture_history.getD idx.toNat (0, 0, 0, 0)
    { s with capture_history_index := idx,
             startP := some (e.1, e.2.1),
             endP := some (e.2.2.1, e.2.2.2),
             region_selected := true,
             is_selecting := false }

/-- Per-key pixel delta `(delta_x, delta_y)` in `on_arrow_key`. -/
def arrowDelta (k : Arrow) : Int × Int :=
  match k with
  | Arrow.left => (-1, 0)
  | Arrow.right => (1, 0)
  | Arrow.up => (0, -1)
  | Arrow.down => (0, 1)

/-- The elif chain of `on_arrow_key` that applies `(delta_x, delta_y)` to
the coordinates named by the mode (`'inside'` shifts all four). -/
def arrowQuad (m : Mode) (x1 y1 x2 y2 dx dy : Int) : Int × Int × Int × Int :=
  match m with
  | Mode.inside => (x1 + dx, y1 + dy, x2 + dx, y2 + dy)
  | Mode.tl => (x1 + dx, y1 + dy, x2, y2)
  | Mode.tr => (x1, y1 + dy, x2 + dx, y2)
  | Mode.bl => (x1 + dx, y1, x2, y2 + dy)
  | Mode.br => (x1, y1, x2 + dx, y2 + dy)
  | Mode.left => (x1 + dx, y1, x2, y2)
  | Mode.right => (x1, y1, x2 + dx, y2)
  | Mode.top => (x1, y1 + dy, x2, y2)
  | Mode.bottom => (x1, y1, x2, y2 + dy)

/-- Body of `on_arrow_key` after the restore attempt: normalize, shift the
coordinates named by `last_adjust_mode`, and for a handle mode reject the
update when the resulting `abs` width or height is below 10. -/
def arrowAdjust (s : AppState) (k : Arrow) : AppState :=
  match s.startP, s.endP with
  | some (sx, sy), some (ex, ey) =>
    let x1 := min sx ex
    let y1 := min sy ey
    let x2 := max sx ex
    let y2 := max sy ey
    let d := arrowDelta k
    let q := arrowQuad s.last_adjust_mode x1 y1 x2 y2 d.1 d.2
    if s.last_adjust_mode ≠ Mode.inside ∧
        (|q.2.2.1 - q.1| < 10 ∨ |q.2.2.2 - q.2.1| < 10) then s
    else { s with startP := some (q.1, q.2.1),
                  endP := some (q.2.2.1, q.2.2.2) }
  | _, _ => s

/-- `on_arrow_key(event)`: with no selected region first try
`restore_last_capture` and stop if it fails; then apply the nudge. -/
def on_arrow_key (s : AppState) (k : Arrow) : AppState :=
  if s.region_selected then arrowAdjust s k
  else
    let r := restore_last_capture s
    if r.2 then arrowAdjust r.1 k else s

/-- Result of the Enter/Escape actions: the state left behind, whether
`deactivate_capture_mode` ran, and the rectangle cropped from the frozen
screenshot (`none` when the action bailed out before cropping). -/
structure ActionResult where
  state : AppState
  deactivated : Bool
  cropped : Option (Int × Int × Int × Int)
deriving DecidableEq, Repr

/-- `deactivate_capture_mode()`: tears down the window, magnifier and
frozen screenshot (not modelled) and clears `is_active`. -/
def deactivate_capture_mode (s : AppState) : AppState :=
  { s with is_active := false }

/-- Shared tail of `save_screenshot`/`copy_to_clipboard`: normalize,
commit via `save_current_capture_position`, crop `(x1, y1, x2, y2)` and
deactivate. -/
def commitAndFinish (s1 : AppState) : ActionResult :=
  match s1.startP, s1.endP with
  | some (sx, sy), some (ex, ey) =>
    ⟨deactivate_capture_mode (save_current_capture_position s1),
     true, some (normQuad sx sy ex ey)⟩
  | _, _ => ⟨s1, false, none⟩

/-- `save_screenshot(event)` (Enter): with no active points try a restore
and return (without deactivating) if it fails; otherwise commit, crop,
show the save dialog and deactivate. -/
def save_screenshot (s : AppState) : ActionResult :=
  if s.startP = none ∨ s.endP = none then
    let r := restore_last_capture s
    if r.2 = false then ⟨s, false, none⟩
    else commitAndFinish r.1
  else commitAndFinish s

/-- `copy_to_clipboard(event)` (Escape): like `save_screenshot`, but when
the restore fails it deactivates before returning. -/
def copy_to_clipboard (s : AppState) : ActionResult :=
  if s.startP = none ∨ s.endP = none then
    let r := restore_last_capture s
    if r.2 = false then ⟨deactivate_capture_mode s, true, none⟩
    else commitAndFinish r.1
  else commitAndFinish s

/-- `toggle_info_display()` (key I). -/
def toggle_info_display (s : AppState) : AppState :=
  { s with show_info := !s.show_info }

/-- `activate_capture_mode()`: start a session, resetting the per-session
selection state; the history and its cursor persist across sessions. -/
def activate_capture_mode (s : AppState) : AppState :=
  if s.is_active then s
  else
    { s with is_active := true,
             startP := none, endP := none,
             is_selecting := false, is_resizing := false,
             is_moving := false, resize_mode := none,
             region_selected := false,
             last_adjust_mode := Mode.inside }

/-- Events the Tk main loop can deliver.  `restore` stands for the
deferred `restore_last_capture_and_activate` scheduled at activation and
for the PrtSc restore path. -/
inductive Event where
  | mouseDown (x y : Int)
  | mouseDrag (x y : Int)
  | mouseUp (x y : Int)
  | arrow (k : Arrow)
  | backspace
  | tab
  | enter
  | escape
  | toggleInfo
  | restore
  | activate
deriving DecidableEq, Repr

/-- One event dispatch.  Handlers are bound on the session's canvas, so
apart from activation they only fire while a session is active. -/
def step (s : AppState) (e : Event) : AppState :=
  match e with
  | Event.activate => activate_capture_mode s
  | Event.mouseDown x y => if s.is_active then on_mouse_down s x y else s
  | Event.mouseDrag x y => if s.is_active then on_mouse_drag s x y else s
  | Event.mouseUp x y => if s.is_active then on_mouse_up s x y else s
  | Event.arrow k => if s.is_active then on_arrow_key s k else s
  | Event.backspace => if s.is_active then go_to_previous_capture s else s
  | Event.tab => if s.is_active then go_to_next_capture s else s
  | Event.enter => if s.is_active then (save_screenshot s).state else s
  | Event.escape => if s.is_active then (copy_to_clipboard s).state else s
  | Event.toggleInfo => if s.is_active then toggle_info_display s else s
  | Event.restore => if s.is_active then (restore_last_capture s).1 else s

/-- Run a sequence of events. -/
def run (s : AppState) (es : List Event) : AppState := es.foldl step s

/-- The state built by `ScreenCaptureApp.__init__`. -/
def initialState : AppState :=
  { startP := none, endP := none,
    is_selecting := false, is_resizing := false, is_moving := false,
    resize_mode := none, region_selected := false,
    move_offset := none, last_adjust_mode := Mode.inside,
    capture_history := [], capture_history_index := -1,
    show_info := true, is_active := false }

/-- Magnifier window side in pixels (`self.magnifier_size = 180`). -/
def magnifier_size : Int := 180

/-- Magnifier zoom factor (`self.magnifier_zoom = 3`). -/
def magnifier_zoom : Int := 3

/-- Source-box computation of `update_magnifier(screen_x, screen_y)` on a
bitmap of size `img_width × img_height`: a box of side
`capture_pixels = magnifier_size // magnifier_zoom` centered on the focus
point (via `half_capture = capture_pixels // 2`), then clamped edge by
edge by shifting, in the source's order (left, top, right, bottom). -/
def update_magnifier_box (screen_x screen_y img_width img_height : Int) :
    Int × Int × Int × Int :=
  let capture_pixels := magnifier_size / magnifier_zoom
  let half_capture := capture_pixels / 2
  let cx1 := screen_x - half_capture
  let cy1 := screen_y - half_capture
  let cx2 := screen_x + half_capture
  let cy2 := screen_y + half_capture
  let px := if cx1 < 0 then ((0 : Int), capture_pixels) else (cx1, cx2)
  let py := if cy1 < 0 then ((0 : Int), capture_pixels) else (cy1, cy2)
  let qx := if px.2 > img_width then (img_width - capture_pixels, img_width)
            else px
  let qy := if py.2 > img_height then (img_height - capture_pixels, img_height)
            else py
  (qx.1, qy.1, qx.2, qy.2)

/-- State `t` holds the entry of `s`'s history at index `idx` as the
active, already-selected region, the way the navigation and restore
handlers load it. -/
def loadedAt (s t : AppState) (idx : Int) : Prop :=
  let e := s.capture_history.getD idx.toNat (0, 0, 0, 0)
  t.startP = some (e.1, e.2.1) ∧ t.endP = some (e.2.2.1, e.2.2.2) ∧
  t.region_selected = true ∧ t.is_selecting = false ∧
  t.capture_history = s.capture_history

/-- Normalized width of the active rectangle, `abs(end_x - start_x)` as
computed by `move_selection`; `0` with no active points. -/
def nwidth (s : AppState) : Int :=
  match s.startP, s.endP with
  | some (sx, _), some (ex, _) => |ex - sx|
  | _, _ => 0

/-- Normalized height of the active rectangle, `abs(end_y - start_y)`;
`0` with no active points. -/
def nheight (s : AppState) : Int :=
  match s.startP, s.endP with
  | some (_, sy), some (_, ey) => |ey - sy|
  | _, _ => 0

/-- The history cursor is the unset sentinel `-1` or a valid index. -/
def cursorOK (s : AppState) : Prop :=
  s.capture_history_index = -1 ∨
  (0 ≤ s.capture_history_index ∧
   s.capture_history_index < (s.capture_history.length : Int))

/-- Every tuple in the history list is normalized (`x1 ≤ x2 ∧ y1 ≤ y2`). -/
def histNormOK (s : AppState) : Prop :=
  ∀ q ∈ s.capture_history, q.1 ≤ q.2.2.1 ∧ q.2.1 ≤ q.2.2.2

/-- A history tuple respecting the 10-px minimum in both dimensions. -/
def entryMinOK (q : Int × Int × Int × Int) : Prop :=
  10 ≤ q.2.2.1 - q.1 ∧ 10 ≤ q.2.2.2 - q.2.1

/-- Every history entry respects the minimum size. -/
def histMinOK (s : AppState) : Prop := ∀ q ∈ s.capture_history, entryMinOK q

/-- The active points span at least the minimum size in both dimensions. -/
def activeMinOK (s : AppState) : Prop :=
  ∀ sx sy ex ey, s.startP = some (sx, sy) → s.endP = some (ex, ey) →
    10 ≤ |ex - sx| ∧ 10 ≤ |ey - sy|

/-- Inductive invariant behind the minimum-size property: history entries
are big enough, a selected region is big enough, outside a drag an active
start point implies a selected region, an active start implies an active
end, a drag in progress implies no selected region, and the cursor is
valid. -/
def sizeInv (s : AppState) : Prop :=
  histMinOK s ∧
  (s.region_selected = true → activeMinOK s) ∧
  (s.is_selecting = false → s.startP ≠ none → s.region_selected = true) ∧
  (s.startP ≠ none → s.endP ≠ none) ∧
  (s.is_selecting = true → s.region_selected = false) ∧
  cursorOK s

/-- A trace is commit-safe when Enter/Escape never fire during an
in-progress selection drag. -/
def commitsSafe : AppState → List Event → Bool
  | _, [] => true
  | s, e :: es =>
    (if (e = Event.enter ∨ e = Event.escape) ∧ s.is_selecting then false
     else true) && commitsSafe (step s e) es

/-! Helper lemmas about `indexOfQ` and list access. -/

theorem indexOfQ_some_lt {q : Int × Int × Int × Int} :
    ∀ {l : List (Int × Int × Int × Int)} {i : Nat},
      indexOfQ q l = some i → i < l.length := by
  intro l
  induction l with
  | nil => intro i h; simp [indexOfQ] at h
  | cons c rest ih =>
    intro i h
    simp only [indexOfQ] at h
    by_cases hc : c = q
    · rw [if_pos hc] at h
      obtain rfl : (0 : Nat) = i := Option.some.inj h
      simp
    · rw [if_neg hc] at h
      rcases hj : indexOfQ q rest with _ | j
      · rw [hj] at h; simp at h
      · rw [hj] at h
        simp only [Option.map_some'] at h
        obtain rfl : j + 1 = i := Option.some.inj h
        have := ih hj
        simp only [List.length_cons]
        omega

theorem indexOfQ_none_iff {q : Int × Int × Int × Int} :
    ∀ {l : List (Int × Int × Int × Int)}, indexOfQ q l = none ↔ q ∉ l := by
  intro l
  induction l with
  | nil => simp [indexOfQ]
  | cons c rest ih =>
    simp only [indexOfQ, List.mem_cons]
    by_cases hc : c = q
    · subst hc
      simp
    · rw [if_neg hc]
      rcases hj : indexOfQ q rest with _ | j
      · rw [hj] at ih
        simp only [Option.map_none']
        constructor
        · intro _ hmem
          rcases hmem with h1 | h2
          · exact hc h1.symm
          · exact (ih.mp rfl) h2
        · intro _; trivial
      · rw [hj] at ih
        simp only [Option.map_some']
        constructor
        · intro h; simp at h
        · intro h
          exfalso
          have hmem : q ∈ rest := by
            by_contra hq
            exact absurd (ih.mpr hq) (by simp)
          exact h (Or.inr hmem)

theorem indexOfQ_some_getD {q : Int × Int × Int × Int} :
    ∀ {l : List (Int × Int × Int × Int)} {i : Nat},
      indexOfQ q l = some i → l.getD i (0, 0, 0, 0) = q := by
  intro l
  induction l with
  | nil => intro i h; simp [indexOfQ] at h
  | cons c rest ih =>
    intro i h
    simp only [indexOfQ] at h
    by_cases hc : c = q
    · rw [if_pos hc] at h
      obtain rfl : (0 : Nat) = i := Option.some.inj h
      simpa using hc
    · rw [if_neg hc] at h
      rcases hj : indexOfQ q rest with _ | j
      · rw [hj] at h; simp at h
      · rw [hj] at h
        simp only [Option.map_some'] at h
        obtain rfl : j + 1 = i := Option.some.inj h
        simpa using ih hj

theorem getD_mem_of_lt {l : List (Int × Int × Int × Int)} {i : Nat}
    (h : i < l.length) : l.getD i (0, 0, 0, 0) ∈ l := by
  rw [List.getD_eq_getElem l _ h]
  exact List.getElem_mem h

/-! Frame lemmas: which handlers leave the history list and cursor alone. -/

theorem resize_selection_hist (s : AppState) (x y : Int) :
    (resize_selection s x y).capture_history = s.capture_history ∧
    (resize_selection s x y).capture_history_index = s.capture_history_index := by
  constructor <;>
    · unfold resize_selection
      repeat' first
      | rfl
      | split
      | dsimp only

theorem move_selection_hist (s : AppState) (x y : Int) :
    (move_selection s x y).capture_history = s.capture_history ∧
    (move_selection s x y).capture_history_index = s.capture_history_index := by
  constructor <;>
    · unfold move_selection
      repeat' first
      | rfl
      | split
      | dsimp only

theorem on_mouse_down_hist (s : AppState) (x y : Int) :
    (on_mouse_down s x y).capture_history = s.capture_history ∧
    (on_mouse_down s x y).capture_history_index = s.capture_history_index := by
  constructor <;>
    · unfold on_mouse_down
      repeat' first
      | rfl
      | split
      | dsimp only

theorem on_mouse_drag_hist (s : AppState) (x y : Int) :
    (on_mouse_drag s x y).capture_history = s.capture_history ∧
    (on_mouse_drag s x y).capture_history_index = s.capture_history_index := by
  unfold on_mouse_drag
  split
  · exact ⟨rfl, rfl⟩
  · split
    · exact resize_selection_hist s x y
    · split
      · exact move_selection_hist s x y
      · exact ⟨rfl, rfl⟩

theorem on_mouse_up_hist (s : AppState) (x y : Int) :
    (on_mouse_up s x y).capture_history = s.capture_history ∧
    (on_mouse_up s x y).capture_history_index = s.capture_history_index := by
  constructor <;>
    · unfold on_mouse_up
      repeat' first
      | rfl
      | split
      | dsimp only

theorem arrowAdjust_hist (s : AppState) (k : Arrow) :
    (arrowAdjust s k).capture_history = s.capture_history ∧
    (arrowAdjust s k).capture_history_index = s.capture_history_index := by
  constructor <;>
    · unfold arrowAdjust
      repeat' first
      | rfl
      | split
      | dsimp only

theorem restore_last_capture_hist (s : AppState) :
    (restore_last_capture s).1.capture_history = s.capture_history := by
  unfold restore_last_capture
  split <;> rfl

theorem go_to_previous_capture_hist (s : AppState) :
    (go_to_previous_capture s).capture_history = s.capture_history := by
  unfold go_to_previous_capture
  split <;> rfl

theorem go_to_next_capture_hist (s : AppState) :
    (go_to_next_capture s).capture_history = s.capture_history := by
  unfold go_to_next_capture
  split <;> rfl

/-- `save_current_capture_position` either leaves the history unchanged or
appends exactly one normalized tuple at the end. -/
theorem commit_history_cases (s : AppState) :
    (save_current_capture_position s).capture_history = s.capture_history ∨
    ∃ sx sy ex ey,
      (save_current_capture_position s).capture_history =
        s.capture_history ++ [normQuad sx sy ex ey] := by
  unfold save_current_capture_position
  rcases h1 : s.startP with _ | ⟨sx, sy⟩
  · simp
  rcases h2 : s.endP with _ | ⟨ex, ey⟩
  · simp
  simp only
  rcases h3 : indexOfQ (normQuad sx sy ex ey) s.capture_history with _ | i
  · exact Or.inr ⟨sx, sy, ex, ey, rfl⟩
  · exact Or.inl rfl

/-! Cursor validity. -/

theorem cursorOK_of_eq_hist {s t : AppState}
    (hl : t.capture_history = s.capture_history)
    (hi : t.capture_history_index = s.capture_history_index)
    (h : cursorOK s) : cursorOK t := by
  unfold cursorOK at h ⊢
  rw [hl, hi]
  exact h

theorem cursorOK_commit (s : AppState) (h : cursorOK s) :
    cursorOK (save_current_capture_position s) := by
  unfold save_current_capture_position
  rcases h1 : s.startP with _ | ⟨sx, sy⟩ <;> rcases h2 : s.endP with _ | ⟨ex, ey⟩ <;>
    simp only [h1, h2]
  · exact h
  · exact h
  · exact h
  · rcases h3 : indexOfQ (normQuad sx sy ex ey) s.capture_history with _ | i <;>
      simp only [h3]
    · unfold cursorOK
      dsimp only
      right
      constructor
      · exact Int.ofNat_nonneg _
      · simp only [List.length_append, List.length_cons, List.length_nil]
        omega
    · unfold cursorOK
      dsimp only
      right
      have hi := indexOfQ_some_lt h3
      constructor
      · exact Int.ofNat_nonneg _
      · exact_mod_cast hi

theorem cursorOK_restore (s : AppState) (h : cursorOK s) :
    cursorOK (restore_last_capture s).1 := by
  unfold restore_last_capture
  split
  · exact h
  · rename_i hne
    have hpos : 0 < s.capture_history.length := List.length_pos.mpr hne
    unfold cursorOK at h ⊢
    dsimp only
    rcases h with h | h <;> split <;> omega

theorem cursorOK_prev (s : AppState) (h : cursorOK s) :
    cursorOK (go_to_previous_capture s) := by
  unfold go_to_previous_capture
  split
  · exact h
  · rename_i hne
    have hpos : 0 < s.capture_history.length := List.length_pos.mpr hne
    unfold cursorOK at h ⊢
    dsimp only
    rcases h with h | h <;>
      · repeat' split
        all_goals omega

theorem cursorOK_next (s : AppState) (h : cursorOK s) :
    cursorOK (go_to_next_capture s) := by
  unfold go_to_next_capture
  split
  · exact h
  · rename_i hne
    have hpos : 0 < s.capture_history.length := List.length_pos.mpr hne
    unfold cursorOK at h ⊢
    dsimp only
    rcases h with h | h <;>
      · repeat' split
        all_goals omega

theorem cursorOK_arrow (s : AppState) (k : Arrow) (h : cursorOK s) :
    cursorOK (on_arrow_key s k) := by
  unfold on_arrow_key
  split
  · exact cursorOK_of_eq_hist (arrowAdjust_hist s k).1 (arrowAdjust_hist s k).2 h
  · dsimp only
    split
    · exact cursorOK_of_eq_hist (arrowAdjust_hist _ k).1 (arrowAdjust_hist _ k).2
        (cursorOK_restore s h)
    · exact h

theorem cursorOK_commitAndFinish (s : AppState) (h : cursorOK s) :
    cursorOK (commitAndFinish s).state := by
  unfold commitAndFinish
  rcases h1 : s.startP with _ | ⟨sx, sy⟩ <;> rcases h2 : s.endP with _ | ⟨ex, ey⟩ <;>
    simp only [h1, h2]
  · exact h
  · exact h
  · exact h
  · exact cursorOK_of_eq_hist rfl rfl (cursorOK_commit s h)

theorem cursorOK_save_screenshot (s : AppState) (h : cursorOK s) :
    cursorOK (save_screenshot s).state := by
  unfold save_screenshot
  split
  · dsimp only
    split
    · exact h
    · exact cursorOK_commitAndFinish _ (cursorOK_restore s h)
  · exact cursorOK_commitAndFinish s h

theorem cursorOK_copy_to_clipboard (s : AppState) (h : cursorOK s) :
    cursorOK (copy_to_clipboard s).state := by
  unfold copy_to_clipboard
  split
  · dsimp only
    split
    · exact cursorOK_of_eq_hist rfl rfl h
    · exact cursorOK_commitAndFinish _ (cursorOK_restore s h)
  · exact cursorOK_commitAndFinish s h

theorem step_cursorOK (s : AppState) (e : Event) (h : cursorOK s) :
    cursorOK (step s e) := by
  cases e with
  | activate =>
    simp only [step]; unfold activate_capture_mode
    split
    · exact h
    · exact cursorOK_of_eq_hist rfl rfl h
  | mouseDown x y =>
    simp only [step]
    split
    · exact cursorOK_of_eq_hist (on_mouse_down_hist s x y).1
        (on_mouse_down_hist s x y).2 h
    · exact h
  | mouseDrag x y =>
    simp only [step]
    split
    · exact cursorOK_of_eq_hist (on_mouse_drag_hist s x y).1
        (on_mouse_drag_hist s x y).2 h
    · exact h
  | mouseUp x y =>
    simp only [step]
    split
    · exact cursorOK_of_eq_hist (on_mouse_up_hist s x y).1
        (on_mouse_up_hist s x y).2 h
    · exact h
  | arrow k =>
    simp only [step]
    split
    · exact cursorOK_arrow s k h
    · exact h
  | backspace =>
    simp only [step]
    split
    · exact cursorOK_prev s h
    · exact h
  | tab =>
    simp only [step]
    split
    · exact cursorOK_next s h
    · exact h
  | enter =>
    simp only [step]
    split
    · exact cursorOK_save_screenshot s h
    · exact h
  | escape =>
    simp only [step]
    split
    · exact cursorOK_copy_to_clipboard s h
    · exact h
  | toggleInfo =>
    simp only [step]
    split
    · exact cursorOK_of_eq_hist rfl rfl h
    · exact h
  | restore =>
    simp only [step]
    split
    · exact cursorOK_restore s h
    · exact h

/-- Generic preservation of a predicate along an event run. -/
theorem run_preserve (P : AppState → Prop)
    (hstep : ∀ s e, P s → P (step s e)) :
    ∀ (es : List Event) (s : AppState), P s → P (run s es) := by
  intro es
  induction es with
  | nil => intro s h; exact h
  | cons e rest ih => intro s h; exact ih (step s e) (hstep s e h)

/-! How one step can change the history list. -/

theorem commitAndFinish_history_cases (s : AppState) :
    (commitAndFinish s).state.capture_history = s.capture_history ∨
    ∃ sx sy ex ey, (commitAndFinish s).state.capture_history =
      s.capture_history ++ [normQuad sx sy ex ey] := by
  unfold commitAndFinish
  rcases h1 : s.startP with _ | ⟨sx, sy⟩ <;> rcases h2 : s.endP with _ | ⟨ex, ey⟩ <;>
    simp only [h1, h2]
  · exact Or.inl trivial
  · exact Or.inl trivial
  · exact Or.inl trivial
  · exact commit_history_cases s

/-- Every event either leaves the history unchanged or appends exactly one
normalized tuple at the end; nothing is ever removed or reordered. -/
theorem step_history_cases (s : AppState) (e : Event) :
    (step s e).capture_history = s.capture_history ∨
    ∃ sx sy ex ey, (step s e).capture_history =
      s.capture_history ++ [normQuad sx sy ex ey] := by
  cases e with
  | activate =>
    simp only [step]; unfold activate_capture_mode
    split
    · exact Or.inl rfl
    · exact Or.inl rfl
  | mouseDown x y =>
    simp only [step]
    split
    · exact Or.inl (on_mouse_down_hist s x y).1
    · exact Or.inl rfl
  | mouseDrag x y =>
    simp only [step]
    split
    · exact Or.inl (on_mouse_drag_hist s x y).1
    · exact Or.inl rfl
  | mouseUp x y =>
    simp only [step]
    split
    · exact Or.inl (on_mouse_up_hist s x y).1
    · exact Or.inl rfl
  | arrow k =>
    simp only [step]
    split
    · unfold on_arrow_key
      split
      · exact Or.inl (arrowAdjust_hist s k).1
      · dsimp only
        split
        · exact Or.inl
            ((arrowAdjust_hist _ k).1.trans (restore_last_capture_hist s))
        · exact Or.inl rfl
    · exact Or.inl rfl
  | backspace =>
    simp only [step]
    split
    · exact Or.inl (go_to_previous_capture_hist s)
    · exact Or.inl rfl
  | tab =>
    simp only [step]
    split
    · exact Or.inl (go_to_next_capture_hist s)
    · exact Or.inl rfl
  | enter =>
    simp only [step]
    split
    · unfold save_screenshot
      split
      · dsimp only
        split
        · exact Or.inl rfl
        · rcases commitAndFinish_history_cases (restore_last_capture s).1 with
            hh | ⟨sx, sy, ex, ey, hh⟩
          · exact Or.inl (hh.trans (restore_last_capture_hist s))
          · exact Or.inr ⟨sx, sy, ex, ey, by
              rw [hh, restore_last_capture_hist s]⟩
      · exact commitAndFinish_history_cases s
    · exact Or.inl rfl
  | escape =>
    simp only [step]
    split
    · unfold copy_to_clipboard
      split
      · dsimp only
        split
        · exact Or.inl rfl
        · rcases commitAndFinish_history_cases (restore_last_capture s).1 with
            hh | ⟨sx, sy, ex, ey, hh⟩
          · exact Or.inl (hh.trans (restore_last_capture_hist s))
          · exact Or.inr ⟨sx, sy, ex, ey, by
              rw [hh, restore_last_capture_hist s]⟩
      · exact commitAndFinish_history_cases s
    · exact Or.inl rfl
  | toggleInfo =>
    simp only [step]
    split
    · exact Or.inl rfl
    · exact Or.inl rfl
  | restore =>
    simp only [step]
    split
    · exact Or.inl (restore_last_capture_hist s)
    · exact Or.inl rfl

theorem step_hist_mono (s : AppState) (e : Event) :
    s.capture_history.length ≤ (step s e).capture_history.length := by
  rcases step_history_cases s e with h | ⟨sx, sy, ex, ey, h⟩ <;> simp [h]

theorem step_histNormOK (s : AppState) (e : Event) (h : histNormOK s) :
    histNormOK (step s e) := by
  unfold histNormOK at h ⊢
  rcases step_history_cases s e with hh | ⟨sx, sy, ex, ey, hh⟩ <;> rw [hh]
  · exact h
  · intro q hq
    rcases List.mem_append.mp hq with hq | hq
    · exact h q hq
    · rw [List.mem_singleton.mp hq]
      exact ⟨min_le_max, min_le_max⟩

/-- C1: for every sequence of drag/resize/move/nudge/navigate operations,
the Region exposed to any consumer (history commit, overlay render,
capture crop) satisfies `x1 ≤ x2` and `y1 ≤ y2`, even though the state
machine may hold the raw start/end points in either order.  Part one:
whatever the raw points are, the exposed (normalized) rectangle is
ordered.  Part two: every tuple ever committed to the history along any
event sequence is ordered. -/
theorem C1_exposed_region_normalized :
    (∀ (s : AppState) (x1 y1 x2 y2 : Int),
        exposedRegion s = some (x1, y1, x2, y2) → x1 ≤ x2 ∧ y1 ≤ y2) ∧
    (∀ es : List Event, ∀ q ∈ (run initialState es).capture_history,
        q.1 ≤ q.2.2.1 ∧ q.2.1 ≤ q.2.2.2) := by
  constructor
  · intro s x1 y1 x2 y2 h
    unfold exposedRegion at h
    rcases h1 : s.startP with _ | ⟨sx, sy⟩ <;> rcases h2 : s.endP with _ | ⟨ex, ey⟩ <;>
      rw [h1, h2] at h
    · simp at h
    · simp at h
    · simp at h
    · simp only [normQuad, Option.some.injEq, Prod.mk.injEq] at h
      obtain ⟨e1, e2, e3, e4⟩ := h
      rw [← e1, ← e2, ← e3, ← e4]
      exact ⟨min_le_max, min_le_max⟩
  · intro es
    exact run_preserve histNormOK step_histNormOK es initialState
      (by intro q hq; simp [initialState] at hq)

/-- Witness for C1: a state holding its points in reverse order exposes
the ordered rectangle, and a concrete committed history entry is
ordered. -/
theorem C1_exposed_region_normalized_witness :
    (((100 : Int) ≤ 400 ∧ (100 : Int) ≤ 300) ∧
     ((0 : Int) ≤ 100 ∧ (0 : Int) ≤ 100)) := by
  constructor
  · exact C1_exposed_region_normalized.1
      { startP := some (400, 300), endP := some (100, 100),
        is_selecting := false, is_resizing := false, is_moving := false,
        resize_mode := none, region_selected := true, move_offset := none,
        last_adjust_mode := Mode.inside, capture_history := [],
        capture_history_index := -1, show_info := true, is_active := true }
      100 100 400 300 (by rfl)
  · exact C1_exposed_region_normalized.2
      [Event.activate, Event.mouseDown 0 0, Event.mouseDrag 100 100,
       Event.mouseUp 100 100, Event.enter] (0, 0, 100, 100) (by decide)

/-- C9: after any sequence of operations the history cursor is either the
unset sentinel `-1` or a valid index into the history list, and no single
step ever shrinks the list (so previously valid indices stay valid). -/
theorem C9_cursor_always_valid :
    (∀ es : List Event, cursorOK (run initialState es)) ∧
    (∀ (s : AppState) (e : Event),
        s.capture_history.length ≤ (step s e).capture_history.length) := by
  constructor
  · intro es
    exact run_preserve cursorOK step_cursorOK es initialState (Or.inl rfl)
  · exact step_hist_mono

/-- C3: commit (`save_current_capture_position`) normalizes the active
Region; if an equal entry already exists in the history list the cursor is
set to that entry's (first) index and the list is unchanged; otherwise the
entry is appended and the cursor is set to the new last index; existing
entries are never removed or reordered (the old list is always a prefix
of the new one). -/
theorem C3_commit_dedup_append (s : AppState) (sx sy ex ey : Int)
    (hs : s.startP = some (sx, sy)) (he : s.endP = some (ex, ey)) :
    (normQuad sx sy ex ey ∈ s.capture_history →
      (save_current_capture_position s).capture_history = s.capture_history ∧
      ∃ i : Nat, indexOfQ (normQuad sx sy ex ey) s.capture_history = some i ∧
        (save_current_capture_position s).capture_history_index = (i : Int) ∧
        s.capture_history.getD i (0, 0, 0, 0) = normQuad sx sy ex ey) ∧
    (normQuad sx sy ex ey ∉ s.capture_history →
      (save_current_capture_position s).capture_history
        = s.capture_history ++ [normQuad sx sy ex ey] ∧
      (save_current_capture_position s).capture_history_index
        = (s.capture_history.length : Int)) ∧
    (∃ t, (save_current_capture_position s).capture_history
        = s.capture_history ++ t) := by
  unfold save_current_capture_position
  simp only [hs, he]
  rcases h3 : indexOfQ (normQuad sx sy ex ey) s.capture_history with _ | i <;>
    simp only [h3]
  · refine ⟨?_, fun _ => ⟨by trivial, by trivial⟩,
      ⟨[normQuad sx sy ex ey], by trivial⟩⟩
    intro hmem
    exact absurd hmem (indexOfQ_none_iff.mp h3)
  · refine ⟨?_, ?_, ⟨[], by simp⟩⟩
    · intro _
      exact ⟨by trivial, i, by trivial, by trivial, indexOfQ_some_getD h3⟩
    · intro hnot
      exfalso
      have hmem := getD_mem_of_lt (indexOfQ_some_lt h3)
      rw [indexOfQ_some_getD h3] at hmem
      exact hnot hmem

/-- Witness for C3: committing a fresh rectangle appends it and points the
cursor at the new last index. -/
theorem C3_commit_dedup_append_witness :
    (save_current_capture_position
      { startP := some (20, 60), endP := some (80, 10),
        is_selecting := false, is_resizing := false, is_moving := false,
        resize_mode := none, region_selected := true, move_offset := none,
        last_adjust_mode := Mode.inside, capture_history := [(0, 0, 50, 50)],
        capture_history_index := 0, show_info := true,
        is_active := true }).capture_history
      = [(0, 0, 50, 50)] ++ [normQuad 20 60 80 10] ∧
    (save_current_capture_position
      { startP := some (20, 60), endP := some (80, 10),
        is_selecting := false, is_resizing := false, is_moving := false,
        resize_mode := none, region_selected := true, move_offset := none,
        last_adjust_mode := Mode.inside, capture_history := [(0, 0, 50, 50)],
        capture_history_index := 0, show_info := true,
        is_active := true }).capture_history_index = (1 : Int) :=
  (C3_commit_dedup_append _ 20 60 80 10 rfl rfl).2.1 (by decide)

/-- C4: Previous (Backspace) jumps to the last index when the cursor is
unset, decrements when the cursor is positive, and wraps to the last index
from 0; Next (Tab) jumps to 0 when unset, increments below the last index
and wraps to 0 from it; both are no-ops on an empty history and both load
the target entry as the active, selected Region. -/
theorem C4_history_navigation_wraps (s : AppState) :
    (s.capture_history = [] →
      go_to_previous_capture s = s ∧ go_to_next_capture s = s) ∧
    (s.capture_history ≠ [] →
      (let n : Int := s.capture_history.length
       let sp := go_to_previous_capture s
       let sn := go_to_next_capture s
       (s.capture_history_index = -1 → sp.capture_history_index = n - 1) ∧
       (0 < s.capture_history_index →
          sp.capture_history_index = s.capture_history_index - 1) ∧
       (s.capture_history_index = 0 → sp.capture_history_index = n - 1) ∧
       loadedAt s sp sp.capture_history_index ∧
       (s.capture_history_index = -1 → sn.capture_history_index = 0) ∧
       (s.capture_history_index ≠ -1 → s.capture_history_index < n - 1 →
          sn.capture_history_index = s.capture_history_index + 1) ∧
       (s.capture_history_index = n - 1 → sn.capture_history_index = 0) ∧
       loadedAt s sn sn.capture_history_index)) := by
  constructor
  · intro h
    constructor
    · unfold go_to_previous_capture
      rw [if_pos h]
    · unfold go_to_next_capture
      rw [if_pos h]
  · intro hne
    have hpos : 0 < s.capture_history.length := List.length_pos.mpr hne
    refine ⟨?_, ?_, ?_, ?_, ?_, ?_, ?_, ?_⟩
    · intro h
      unfold go_to_previous_capture
      rw [if_neg hne]
      dsimp only
      rw [if_pos h]
    · intro h
      unfold go_to_previous_capture
      rw [if_neg hne]
      dsimp only
      rw [if_neg (by omega), if_pos (by omega)]
    · intro h
      unfold go_to_previous_capture
      rw [if_neg hne]
      dsimp only
      rw [if_neg (by omega), if_neg (by omega)]
    · unfold loadedAt go_to_previous_capture
      rw [if_neg hne]
      exact ⟨rfl, rfl, rfl, rfl, rfl⟩
    · intro h
      unfold go_to_next_capture
      rw [if_neg hne]
      dsimp only
      rw [if_pos h]
    · intro h h2
      unfold go_to_next_capture
      rw [if_neg hne]
      dsimp only
      rw [if_neg h, if_pos (by exact_mod_cast h2)]
    · intro h
      unfold go_to_next_capture
      rw [if_neg hne]
      dsimp only
      rw [if_neg (by omega), if_neg (by omega)]
    · unfold loadedAt go_to_next_capture
      rw [if_neg hne]
      exact ⟨rfl, rfl, rfl, rfl, rfl⟩

/-- Witness for C4: with two entries and cursor 0, Previous wraps to the
last index and Next increments. -/
theorem C4_history_navigation_wraps_witness :
    (go_to_previous_capture
      { startP := none, endP := none, is_selecting := false,
        is_resizing := false, is_moving := false, resize_mode := none,
        region_selected := false, move_offset := none,
        last_adjust_mode := Mode.inside,
        capture_history := [(0, 0, 20, 20), (5, 5, 50, 50)],
        capture_history_index := 0, show_info := true,
        is_active := true }).capture_history_index = (1 : Int) ∧
    (go_to_next_capture
      { startP := none, endP := none, is_selecting := false,
        is_resizing := false, is_moving := false, resize_mode := none,
        region_selected := false, move_offset := none,
        last_adjust_mode := Mode.inside,
        capture_history := [(0, 0, 20, 20), (5, 5, 50, 50)],
        capture_history_index := 0, show_info := true,
        is_active := true }).capture_history_index = (0 : Int) + 1 := by
  constructor
  · exact ((C4_history_navigation_wraps _).2 (by decide)).2.2.1 (by decide)
  · exact ((C4_history_navigation_wraps _).2 (by decide)).2.2.2.2.2.1
      (by decide) (by decide)

/-- C8: for a focus point inside the bitmap, with the bitmap at least as
large as the source box, the magnifier's source box of constant side
`magnifier_size / magnifier_zoom`, centered on the focus and clamped by
shifting at each edge, stays inside the bitmap and keeps its size. -/
theorem C8_magnifier_box_clamped (screen_x screen_y img_width img_height : Int)
    (hx0 : 0 ≤ screen_x) (hx1 : screen_x < img_width)
    (hy0 : 0 ≤ screen_y) (hy1 : screen_y < img_height)
    (hw : magnifier_size / magnifier_zoom ≤ img_width)
    (hh : magnifier_size / magnifier_zoom ≤ img_height) :
    (let b := update_magnifier_box screen_x screen_y img_width img_height
     0 ≤ b.1 ∧ 0 ≤ b.2.1 ∧ b.2.2.1 ≤ img_width ∧ b.2.2.2 ≤ img_height ∧
     b.2.2.1 - b.1 = magnifier_size / magnifier_zoom ∧
     b.2.2.2 - b.2.1 = magnifier_size / magnifier_zoom) := by
  unfold update_magnifier_box magnifier_size magnifier_zoom at *
  dsimp only
  norm_num at *
  split_ifs <;> omega

/-- Witness for C8: a focus point near the left and bottom edges of a
1920×200 bitmap still yields an in-bounds 60×60 source box. -/
theorem C8_magnifier_box_clamped_witness :
    (let b := update_magnifier_box 10 170 1920 200
     0 ≤ b.1 ∧ 0 ≤ b.2.1 ∧ b.2.2.1 ≤ 1920 ∧ b.2.2.2 ≤ 200 ∧
     b.2.2.1 - b.1 = magnifier_size / magnifier_zoom ∧
     b.2.2.2 - b.2.1 = magnifier_size / magnifier_zoom) :=
  C8_magnifier_box_clamped 10 170 1920 200 (by decide) (by decide)
    (by decide) (by decide) (by decide) (by decide)

/-- C10: with no active points and an empty history, Escape
(`copy_to_clipboard`) deactivates the session before returning while Enter
(`save_screenshot`) returns without deactivating; neither commits, crops
or changes the history. -/
theorem C10_empty_history_asymmetry (s : AppState)
    (h1 : s.startP = none ∨ s.endP = none) (h2 : s.capture_history = []) :
    copy_to_clipboard s = ⟨deactivate_capture_mode s, true, none⟩ ∧
    (copy_to_clipboard s).state.is_active = false ∧
    save_screenshot s = ⟨s, false, none⟩ ∧
    (copy_to_clipboard s).state.capture_history = s.capture_history ∧
    (save_screenshot s).state.capture_history = s.capture_history := by
  have hrest : restore_last_capture s = (s, false) := by
    unfold restore_last_capture
    rw [if_pos h2]
  have hA : copy_to_clipboard s = ⟨deactivate_capture_mode s, true, none⟩ := by
    unfold copy_to_clipboard
    rw [if_pos h1]
    dsimp only
    rw [hrest]
    simp
  have hB : save_screenshot s = ⟨s, false, none⟩ := by
    unfold save_screenshot
    rw [if_pos h1]
    dsimp only
    rw [hrest]
    simp
  refine ⟨hA, ?_, hB, ?_, ?_⟩
  · rw [hA]; rfl
  · rw [hA]; rfl
  · rw [hB]

/-- Witness for C10: the initial state has no points and no history. -/
theorem C10_empty_history_asymmetry_witness :
    copy_to_clipboard initialState =
      ⟨deactivate_capture_mode initialState, true, none⟩ ∧
    (copy_to_clipboard initialState).state.is_active = false ∧
    save_screenshot initialState = ⟨initialState, false, none⟩ ∧
    (copy_to_clipboard initialState).state.capture_history
      = initialState.capture_history ∧
    (save_screenshot initialState).state.capture_history
      = initialState.capture_history :=
  C10_empty_history_asymmetry initialState (Or.inl rfl) rfl

theorem move_selection_size (s : AppState) (x y : Int) :
    nwidth (move_selection s x y) = nwidth s ∧
    nheight (move_selection s x y) = nheight s := by
  unfold move_selection
  split
  · exact ⟨rfl, rfl⟩
  · rcases hs : s.startP with _ | ⟨sx, sy⟩ <;>
      rcases he : s.endP with _ | ⟨ex, ey⟩ <;>
      rcases ho : s.move_offset with _ | ⟨ox, oy⟩ <;>
      simp only [hs, he, ho]
    · exact ⟨by trivial, by trivial⟩
    · exact ⟨by trivial, by trivial⟩
    · exact ⟨by trivial, by trivial⟩
    · exact ⟨by trivial, by trivial⟩
    · exact ⟨by trivial, by trivial⟩
    · exact ⟨by trivial, by trivial⟩
    · exact ⟨by trivial, by trivial⟩
    · constructor
      · simp only [nwidth, hs, he]
        have h : x - ox + |ex - sx| - (x - ox) = |ex - sx| := by ring
        rw [h, abs_abs]
      · simp only [nheight, hs, he]
        have h : y - oy + |ey - sy| - (y - oy) = |ey - sy| := by ring
        rw [h, abs_abs]

/-- C6: for every sequence of Moving steps the normalized width and height
of the Region are invariant; a single move translates both normalized
corners by the same delta; the pointer offset is recorded once at
Moving-start as the distance from the pointer to the rectangle's
normalized top-left. -/
theorem C6_move_preserves_size :
    (∀ (s : AppState) (moves : List (Int × Int)),
        nwidth (moves.foldl (fun t p => move_selection t p.1 p.2) s) = nwidth s ∧
        nheight (moves.foldl (fun t p => move_selection t p.1 p.2) s)
          = nheight s) ∧
    (∀ (s : AppState) (x y sx sy ex ey ox oy : Int),
        s.is_moving = true → s.startP = some (sx, sy) →
        s.endP = some (ex, ey) → s.move_offset = some (ox, oy) →
        exposedRegion (move_selection s x y) =
          some (min sx ex + ((x - ox) - min sx ex),
                min sy ey + ((y - oy) - min sy ey),
                max sx ex + ((x - ox) - min sx ex),
                max sy ey + ((y - oy) - min sy ey))) ∧
    (∀ (s : AppState) (x y : Int),
        get_resize_mode s x y = some Mode.inside →
        (on_mouse_down s x y).is_moving = true ∧
        ∃ sx sy ex ey, s.startP = some (sx, sy) ∧ s.endP = some (ex, ey) ∧
          (on_mouse_down s x y).move_offset =
            some (x - min sx ex, y - min sy ey)) := by
  refine ⟨?_, ?_, ?_⟩
  · intro s moves
    induction moves generalizing s with
    | nil => exact ⟨rfl, rfl⟩
    | cons p rest ih =>
      simp only [List.foldl_cons]
      obtain ⟨hw, hh⟩ := ih (move_selection s p.1 p.2)
      exact ⟨hw.trans (move_selection_size s p.1 p.2).1,
             hh.trans (move_selection_size s p.1 p.2).2⟩
  · intro s x y sx sy ex ey ox oy hm hs he ho
    simp only [move_selection, hm, Bool.true_eq_false, if_false, hs, he, ho,
      exposedRegion, normQuad]
    have m1 : min (x - ox) (x - ox + |ex - sx|) = x - ox :=
      min_eq_left (le_add_of_nonneg_right (abs_nonneg _))
    have m2 : max (x - ox) (x - ox + |ex - sx|) = x - ox + |ex - sx| :=
      max_eq_right (le_add_of_nonneg_right (abs_nonneg _))
    have m3 : min (y - oy) (y - oy + |ey - sy|) = y - oy :=
      min_eq_left (le_add_of_nonneg_right (abs_nonneg _))
    have m4 : max (y - oy) (y - oy + |ey - sy|) = y - oy + |ey - sy| :=
      max_eq_right (le_add_of_nonneg_right (abs_nonneg _))
    have w1 : |ex - sx| = max sx ex - min sx ex := by
      rcases le_total sx ex with h | h
      · rw [abs_of_nonneg (by omega), max_eq_right h, min_eq_left h]
      · rw [abs_of_nonpos (by omega), max_eq_left h, min_eq_right h]
        ring
    have w2 : |ey - sy| = max sy ey - min sy ey := by
      rcases le_total sy ey with h | h
      · rw [abs_of_nonneg (by omega), max_eq_right h, min_eq_left h]
      · rw [abs_of_nonpos (by omega), max_eq_left h, min_eq_right h]
        ring
    rw [m1, m2, m3, m4, w1, w2]
    simp only [Option.some.injEq, Prod.mk.injEq]
    refine ⟨by ring, by ring, by ring, by ring⟩
  · intro s x y hmode
    rcases hs : s.startP with _ | ⟨sx, sy⟩
    · exfalso
      unfold get_resize_mode at hmode
      rw [hs] at hmode
      split at hmode <;> simp at hmode
    rcases he : s.endP with _ | ⟨ex, ey⟩
    · exfalso
      unfold get_resize_mode at hmode
      rw [hs, he] at hmode
      split at hmode <;> simp at hmode
    refine ⟨?_, sx, sy, ex, ey, rfl, rfl, ?_⟩ <;>
      simp only [on_mouse_down, hmode, hs, he]

/-- Witness for C6: a concrete moving state keeps its 100×50 size, the
translation lands where the offset dictates, and a mouse-down inside the
rectangle records the offset from the top-left. -/
theorem C6_move_preserves_size_witness :
    (nwidth ([((7 : Int), (9 : Int)), (200, 300)].foldl
        (fun t p => move_selection t p.1 p.2)
        { startP := some (0, 0), endP := some (100, 50),
          is_selecting := false, is_resizing := false, is_moving := true,
          resize_mode := none, region_selected := true,
          move_offset := some (10, 20), last_adjust_mode := Mode.inside,
          capture_history := [], capture_history_index := -1,
          show_info := true, is_active := true })
      = nwidth
        { startP := some (0, 0), endP := some (100, 50),
          is_selecting := false, is_resizing := false, is_moving := true,
          resize_mode := none, region_selected := true,
          move_offset := some (10, 20), last_adjust_mode := Mode.inside,
          capture_history := [], capture_history_index := -1,
          show_info := true, is_active := true }) ∧
    (exposedRegion (move_selection
        { startP := some (0, 0), endP := some (100, 50),
          is_selecting := false, is_resizing := false, is_moving := true,
          resize_mode := none, region_selected := true,
          move_offset := some (10, 20), last_adjust_mode := Mode.inside,
          capture_history := [], capture_history_index := -1,
          show_info := true, is_active := true } 60 80) =
      some (min 0 100 + ((60 - 10) - min 0 100),
            min 0 50 + ((80 - 20) - min 0 50),
            max 0 100 + ((60 - 10) - min 0 100),
            max 0 50 + ((80 - 20) - min 0 50))) ∧
    ((on_mouse_down
        { startP := some (0, 0), endP := some (100, 50),
          is_selecting := false, is_resizing := false, is_moving := false,
          resize_mode := none, region_selected := true, move_offset := none,
          last_adjust_mode := Mode.inside, capture_history := [],
          capture_history_index := -1, show_info := true,
          is_active := true } 50 25).is_moving = true ∧
      ∃ sx sy ex ey,
        ({ startP := some ((0 : Int), (0 : Int)),
           endP := some ((100 : Int), (50 : Int)),
           is_selecting := false, is_resizing := false, is_moving := false,
           resize_mode := none, region_selected := true, move_offset := none,
           last_adjust_mode := Mode.inside, capture_history := [],
           capture_history_index := -1, show_info := true,
           is_active := true } : AppState).startP = some (sx, sy) ∧
        ({ startP := some ((0 : Int), (0 : Int)),
           endP := some ((100 : Int), (50 : Int)),
           is_selecting := false, is_resizing := false, is_moving := false,
           resize_mode := none, region_selected := true, move_offset := none,
           last_adjust_mode := Mode.inside, capture_history := [],
           capture_history_index := -1, show_info := true,
           is_active := true } : AppState).endP = some (ex, ey) ∧
        (on_mouse_down
          { startP := some (0, 0), endP := some (100, 50),
            is_selecting := false, is_resizing := false, is_moving := false,
            resize_mode := none, region_selected := true, move_offset := none,
            last_adjust_mode := Mode.inside, capture_history := [],
            capture_history_index := -1, show_info := true,
            is_active := true } 50 25).move_offset =
          some (50 - min sx ex, 25 - min sy ey)) :=
  ⟨(C6_move_preserves_size.1 _ _).1,
   C6_move_preserves_size.2.1 _ 60 80 0 0 100 50 10 20 rfl rfl rfl rfl,
   C6_move_preserves_size.2.2 _ 50 25 (by decide)⟩

/-- Counterexample to C5 as stated: with the selected region
(0,0,100,100), pressing the mouse on the `left` handle and dragging to
x = 150 crosses the right edge; the update passes the `abs` minimum-size
check and is accepted, and the normalized x2 changes from 100 to 150 (and
x1 from 0 to 100) although only x1 is associated with `left`. -/
theorem C5_counterexample :
    exposedRegion (run initialState
      [Event.activate, Event.mouseDown 0 0, Event.mouseDrag 100 100,
       Event.mouseUp 100 100, Event.mouseDown 0 50]) =
      some (0, 0, 100, 100) ∧
    (run initialState
      [Event.activate, Event.mouseDown 0 0, Event.mouseDrag 100 100,
       Event.mouseUp 100 100, Event.mouseDown 0 50]).resize_mode =
      some Mode.left ∧
    exposedRegion (run initialState
      [Event.activate, Event.mouseDown 0 0, Event.mouseDrag 100 100,
       Event.mouseUp 100 100, Event.mouseDown 0 50, Event.mouseDrag 150 50])
      = some (100, 0, 150, 100) := by
  exact ⟨by decide, by decide, by decide⟩

/-- C5 (amended): a resize step that would make the `abs` width or height
fall below 10 leaves the whole previous state unchanged — whether or not
the moved edge crossed the opposite one; an accepted resize via handle
`m` whose moved edge(s) do not cross the opposite edge(s) exposes
exactly the rectangle in which only the coordinates associated with `m`
took the pointer value while every other coordinate keeps its previous
normalized value.  (When a moved edge crosses the opposite edge by at
least the minimum size the rectangle flips and the opposite normalized
coordinate changes too — see `C5_counterexample` — so the crossing case
is excluded from the second conjunct only.) -/
theorem C5_amended_resize_edges (s : AppState) (m : Mode) (x y sx sy ex ey : Int)
    (hm : s.resize_mode = some m)
    (hs : s.startP = some (sx, sy)) (he : s.endP = some (ex, ey)) :
    ((|(if movesX2 m then x else max sx ex)
        - (if movesX1 m then x else min sx ex)| < 10 ∨
      |(if movesY2 m then y else max sy ey)
        - (if movesY1 m then y else min sy ey)| < 10) →
      resize_selection s x y = s) ∧
    ((if movesX1 m then x else min sx ex)
        ≤ (if movesX2 m then x else max sx ex) →
     (if movesY1 m then y else min sy ey)
        ≤ (if movesY2 m then y else max sy ey) →
     ¬(|(if movesX2 m then x else max sx ex)
          - (if movesX1 m then x else min sx ex)| < 10 ∨
       |(if movesY2 m then y else max sy ey)
          - (if movesY1 m then y else min sy ey)| < 10) →
      exposedRegion (resize_selection s x y) =
        some (if movesX1 m then x else min sx ex,
              if movesY1 m then y else min sy ey,
              if movesX2 m then x else max sx ex,
              if movesY2 m then y else max sy ey)) := by
  unfold resize_selection
  simp only [hm, hs, he]
  constructor
  · intro hlt
    rw [if_pos hlt]
  · intro hx hy hlt
    rw [if_neg hlt]
    simp only [exposedRegion, normQuad, Option.some.injEq, Prod.mk.injEq]
    exact ⟨min_eq_left hx, min_eq_left hy, max_eq_right hx, max_eq_right hy⟩

/-- Witness for C5 (amended): on (0,0,100,100) with the `left` handle, a
drag to x = 105 crosses the right edge but falls below the minimum and is
rejected unchanged, while a drag to x = 40 is accepted and moves only the
normalized x1. -/
theorem C5_amended_resize_edges_witness :
    resize_selection
      { startP := some (0, 0), endP := some (100, 100),
        is_selecting := false, is_resizing := true, is_moving := false,
        resize_mode := some Mode.left, region_selected := true,
        move_offset := none, last_adjust_mode := Mode.left,
        capture_history := [], capture_history_index := -1,
        show_info := true, is_active := true } 105 50 =
      { startP := some (0, 0), endP := some (100, 100),
        is_selecting := false, is_resizing := true, is_moving := false,
        resize_mode := some Mode.left, region_selected := true,
        move_offset := none, last_adjust_mode := Mode.left,
        capture_history := [], capture_history_index := -1,
        show_info := true, is_active := true } ∧
    exposedRegion (resize_selection
      { startP := some (0, 0), endP := some (100, 100),
        is_selecting := false, is_resizing := true, is_moving := false,
        resize_mode := some Mode.left, region_selected := true,
        move_offset := none, last_adjust_mode := Mode.left,
        capture_history := [], capture_history_index := -1,
        show_info := true, is_active := true } 40 50) =
      some (if movesX1 Mode.left then 40 else min 0 100,
            if movesY1 Mode.left then 50 else min 0 100,
            if movesX2 Mode.left then 40 else max 0 100,
            if movesY2 Mode.left then 50 else max 0 100) :=
  ⟨(C5_amended_resize_edges _ Mode.left 105 50 0 0 100 100 rfl rfl
      rfl).1 (by decide),
   (C5_amended_resize_edges _ Mode.left 40 50 0 0 100 100 rfl rfl
      rfl).2 (by decide) (by decide) (by decide)⟩

theorem le_add_ten_of_abs {a b : Int} (h1 : 10 ≤ |b - a|) (h2 : -9 ≤ b - a) :
    a + 10 ≤ b := by
  rcases abs_cases (b - a) with ⟨he, _⟩ | ⟨he, _⟩ <;> omega

theorem arrowQuad_eq_moves (m : Mode) (hne : m ≠ Mode.inside)
    (x1 y1 x2 y2 dx dy : Int) :
    arrowQuad m x1 y1 x2 y2 dx dy =
      (if movesX1 m then x1 + dx else x1,
       if movesY1 m then y1 + dy else y1,
       if movesX2 m then x2 + dx else x2,
       if movesY2 m then y2 + dy else y2) := by
  cases m <;> simp [arrowQuad, movesX1, movesX2, movesY1, movesY2] at hne ⊢

theorem arrowDelta_bounds (k : Arrow) :
    -1 ≤ (arrowDelta k).1 ∧ (arrowDelta k).1 ≤ 1 ∧
    -1 ≤ (arrowDelta k).2 ∧ (arrowDelta k).2 ≤ 1 := by
  cases k <;> decide

/-- Counterexample to C7 as stated: the history holds (0,0,100,100) then
(200,200,350,350), the cursor sits at index 0 and no region is active
(after a below-minimum release discarded the selection); Left arrow
restores and nudges the entry at the cursor, yielding (−1,0)–(99,100),
not the most recent entry (which would give (199,200)–(349,350)). -/
theorem C7_counterexample :
    (run initialState
      [Event.activate, Event.restore, Event.mouseDown 0 0,
       Event.mouseDrag 100 100, Event.mouseUp 100 100, Event.enter,
       Event.activate, Event.restore, Event.mouseDown 200 200,
       Event.mouseDrag 350 350, Event.mouseUp 350 350, Event.enter,
       Event.activate, Event.restore, Event.backspace,
       Event.mouseDown 200 200, Event.mouseUp 203 203]).region_selected
      = false ∧
    (run initialState
      [Event.activate, Event.restore, Event.mouseDown 0 0,
       Event.mouseDrag 100 100, Event.mouseUp 100 100, Event.enter,
       Event.activate, Event.restore, Event.mouseDown 200 200,
       Event.mouseDrag 350 350, Event.mouseUp 350 350, Event.enter,
       Event.activate, Event.restore, Event.backspace,
       Event.mouseDown 200 200, Event.mouseUp 203 203]).capture_history
      = [(0, 0, 100, 100), (200, 200, 350, 350)] ∧
    (run initialState
      [Event.activate, Event.restore, Event.mouseDown 0 0,
       Event.mouseDrag 100 100, Event.mouseUp 100 100, Event.enter,
       Event.activate, Event.restore, Event.mouseDown 200 200,
       Event.mouseDrag 350 350, Event.mouseUp 350 350, Event.enter,
       Event.activate, Event.restore, Event.backspace,
       Event.mouseDown 200 200, Event.mouseUp 203 203,
       Event.arrow Arrow.left]).startP = some (-1, 0) ∧
    (run initialState
      [Event.activate, Event.restore, Event.mouseDown 0 0,
       Event.mouseDrag 100 100, Event.mouseUp 100 100, Event.enter,
       Event.activate, Event.restore, Event.mouseDown 200 200,
       Event.mouseDrag 350 350, Event.mouseUp 350 350, Event.enter,
       Event.activate, Event.restore, Event.backspace,
       Event.mouseDown 200 200, Event.mouseUp 203 203,
       Event.arrow Arrow.left]).endP = some (99, 100) := by
  exact ⟨by decide, by decide, by decide, by decide⟩

/-- C7 (amended): an arrow key with no selected region and an empty
history is a no-op; with a non-empty history it first restores the entry
at the current cursor (the last entry only when the cursor is unset) and
then applies the nudge to it; with a selected region the nudge applies a
±1-pixel delta per the last adjust mode — `inside` translates the whole
rectangle, a handle mode moves only its associated edge(s) and is
rejected as a no-op when the result's width or height would fall below
10 — so with Region (100,100,400,300) and last adjust mode top-left,
Left arrow yields (99,100,400,300). -/
theorem C7_amended_arrow_nudge :
    (∀ (s : AppState) (k : Arrow), s.region_selected = false →
        s.capture_history = [] → on_arrow_key s k = s) ∧
    (∀ s : AppState, s.capture_history ≠ [] →
        (restore_last_capture s).2 = true ∧
        (restore_last_capture s).1.capture_history_index =
          (if s.capture_history_index = -1
           then (s.capture_history.length : Int) - 1
           else s.capture_history_index) ∧
        loadedAt s (restore_last_capture s).1
          (restore_last_capture s).1.capture_history_index) ∧
    (∀ (s : AppState) (k : Arrow), s.region_selected = false →
        s.capture_history ≠ [] →
        on_arrow_key s k = arrowAdjust (restore_last_capture s).1 k) ∧
    (∀ (s : AppState) (k : Arrow) (sx sy ex ey : Int),
        s.region_selected = true → s.startP = some (sx, sy) →
        s.endP = some (ex, ey) → s.last_adjust_mode = Mode.inside →
        (on_arrow_key s k).startP =
          some (min sx ex + (arrowDelta k).1, min sy ey + (arrowDelta k).2) ∧
        (on_arrow_key s k).endP =
          some (max sx ex + (arrowDelta k).1, max sy ey + (arrowDelta k).2)) ∧
    (∀ (s : AppState) (k : Arrow) (m : Mode) (sx sy ex ey : Int),
        s.region_selected = true → s.startP = some (sx, sy) →
        s.endP = some (ex, ey) → s.last_adjust_mode = m → m ≠ Mode.inside →
        ((|(arrowQuad m (min sx ex) (min sy ey) (max sx ex) (max sy ey)
              (arrowDelta k).1 (arrowDelta k).2).2.2.1
            - (arrowQuad m (min sx ex) (min sy ey) (max sx ex) (max sy ey)
              (arrowDelta k).1 (arrowDelta k).2).1| < 10 ∨
          |(arrowQuad m (min sx ex) (min sy ey) (max sx ex) (max sy ey)
              (arrowDelta k).1 (arrowDelta k).2).2.2.2
            - (arrowQuad m (min sx ex) (min sy ey) (max sx ex) (max sy ey)
              (arrowDelta k).1 (arrowDelta k).2).2.1| < 10) →
            on_arrow_key s k = s) ∧
        (¬(|(arrowQuad m (min sx ex) (min sy ey) (max sx ex) (max sy ey)
              (arrowDelta k).1 (arrowDelta k).2).2.2.1
            - (arrowQuad m (min sx ex) (min sy ey) (max sx ex) (max sy ey)
              (arrowDelta k).1 (arrowDelta k).2).1| < 10 ∨
           |(arrowQuad m (min sx ex) (min sy ey) (max sx ex) (max sy ey)
              (arrowDelta k).1 (arrowDelta k).2).2.2.2
            - (arrowQuad m (min sx ex) (min sy ey) (max sx ex) (max sy ey)
              (arrowDelta k).1 (arrowDelta k).2).2.1| < 10) →
          exposedRegion (on_arrow_key s k) =
            some (arrowQuad m (min sx ex) (min sy ey) (max sx ex)
              (max sy ey) (arrowDelta k).1 (arrowDelta k).2) ∧
          (movesX1 m = false →
            (arrowQuad m (min sx ex) (min sy ey) (max sx ex) (max sy ey)
              (arrowDelta k).1 (arrowDelta k).2).1 = min sx ex) ∧
          (movesY1 m = false →
            (arrowQuad m (min sx ex) (min sy ey) (max sx ex) (max sy ey)
              (arrowDelta k).1 (arrowDelta k).2).2.1 = min sy ey) ∧
          (movesX2 m = false →
            (arrowQuad m (min sx ex) (min sy ey) (max sx ex) (max sy ey)
              (arrowDelta k).1 (arrowDelta k).2).2.2.1 = max sx ex) ∧
          (movesY2 m = false →
            (arrowQuad m (min sx ex) (min sy ey) (max sx ex) (max sy ey)
              (arrowDelta k).1 (arrowDelta k).2).2.2.2 = max sy ey))) ∧
    ((on_arrow_key
        { startP := some (100, 100), endP := some (400, 300),
          is_selecting := false, is_resizing := false, is_moving := false,
          resize_mode := none, region_selected := true, move_offset := none,
          last_adjust_mode := Mode.tl, capture_history := [],
          capture_history_index := -1, show_info := true,
          is_active := true } Arrow.left).startP = some (99, 100) ∧
     (on_arrow_key
        { startP := some (100, 100), endP := some (400, 300),
          is_selecting := false, is_resizing := false, is_moving := false,
          resize_mode := none, region_selected := true, move_offset := none,
          last_adjust_mode := Mode.tl, capture_history := [],
          capture_history_index := -1, show_info := true,
          is_active := true } Arrow.left).endP = some (400, 300)) := by
  refine ⟨?_, ?_, ?_, ?_, ?_, by decide, by decide⟩
  · intro s k hsel hemp
    have hr : restore_last_capture s = (s, false) := by
      unfold restore_last_capture
      rw [if_pos hemp]
    simp [on_arrow_key, hsel, hr]
  · intro s hne
    unfold restore_last_capture
    rw [if_neg hne]
    refine ⟨rfl, rfl, ?_⟩
    unfold loadedAt
    exact ⟨rfl, rfl, rfl, rfl, rfl⟩
  · intro s k hsel hne
    have h2 : (restore_last_capture s).2 = true := by
      unfold restore_last_capture
      rw [if_neg hne]
    simp [on_arrow_key, hsel, h2]
  · intro s k sx sy ex ey hsel hs he hm
    have hred : on_arrow_key s k = arrowAdjust s k := by
      simp [on_arrow_key, hsel]
    rw [hred]
    unfold arrowAdjust
    simp only [hs, he, hm]
    rw [if_neg (by simp)]
    exact ⟨rfl, rfl⟩
  · intro s k m sx sy ex ey hsel hs he hm hne
    have hred : on_arrow_key s k = arrowAdjust s k := by
      simp [on_arrow_key, hsel]
    constructor
    · intro hlt
      rw [hred]
      unfold arrowAdjust
      simp only [hs, he, hm]
      rw [if_pos ⟨hne, hlt⟩]
    · intro hacc
      push_neg at hacc
      obtain ⟨ha1, ha2⟩ := hacc
      have hd := arrowDelta_bounds k
      obtain ⟨hd1, hd2, hd3, hd4⟩ := hd
      have hmx : min sx ex ≤ max sx ex := min_le_max
      have hmy : min sy ey ≤ max sy ey := min_le_max
      rw [arrowQuad_eq_moves m hne] at ha1 ha2 ⊢
      dsimp only at ha1 ha2 ⊢
      have hb1 : min sx ex - 1
          ≤ (if movesX1 m then min sx ex + (arrowDelta k).1 else min sx ex) ∧
          (if movesX1 m then min sx ex + (arrowDelta k).1 else min sx ex)
          ≤ min sx ex + 1 := by
        split <;> omega
      have hb2 : max sx ex - 1
          ≤ (if movesX2 m then max sx ex + (arrowDelta k).1 else max sx ex) ∧
          (if movesX2 m then max sx ex + (arrowDelta k).1 else max sx ex)
          ≤ max sx ex + 1 := by
        split <;> omega
      have hb3 : min sy ey - 1
          ≤ (if movesY1 m then min sy ey + (arrowDelta k).2 else min sy ey) ∧
          (if movesY1 m then min sy ey + (arrowDelta k).2 else min sy ey)
          ≤ min sy ey + 1 := by
        split <;> omega
      have hb4 : max sy ey - 1
          ≤ (if movesY2 m then max sy ey + (arrowDelta k).2 else max sy ey) ∧
          (if movesY2 m then max sy ey + (arrowDelta k).2 else max sy ey)
          ≤ max sy ey + 1 := by
        split <;> omega
      have ho1 := le_add_ten_of_abs ha1 (by omega)
      have ho2 := le_add_ten_of_abs ha2 (by omega)
      refine ⟨?_, fun hf => by rw [if_neg (by simp [hf])],
        fun hf => by rw [if_neg (by simp [hf])],
        fun hf => by rw [if_neg (by simp [hf])],
        fun hf => by rw [if_neg (by simp [hf])]⟩
      rw [hred]
      unfold arrowAdjust
      simp only [hs, he, hm]
      rw [arrowQuad_eq_moves m hne]
      rw [if_neg (fun hcon => by
        obtain ⟨hq1, hq2⟩ := hcon
        rcases hq2 with hq | hq <;> dsimp only at hq <;> omega)]
      simp only [exposedRegion, normQuad, Option.some.injEq, Prod.mk.injEq]
      exact ⟨min_eq_left (by omega), min_eq_left (by omega),
             max_eq_right (by omega), max_eq_right (by omega)⟩

/-- Witness for C7 (amended): with an empty history and nothing selected
the arrow key is a no-op, and an accepted top-left Left-nudge of
(100,100)-(400,300) exposes the nudged rectangle. -/
theorem C7_amended_arrow_nudge_witness :
    on_arrow_key
      { startP := none, endP := none, is_selecting := false,
        is_resizing := false, is_moving := false, resize_mode := none,
        region_selected := false, move_offset := none,
        last_adjust_mode := Mode.inside, capture_history := [],
        capture_history_index := -1, show_info := true,
        is_active := true } Arrow.left =
      { startP := none, endP := none, is_selecting := false,
        is_resizing := false, is_moving := false, resize_mode := none,
        region_selected := false, move_offset := none,
        last_adjust_mode := Mode.inside, capture_history := [],
        capture_history_index := -1, show_info := true,
        is_active := true } ∧
    exposedRegion (on_arrow_key
      { startP := some (100, 100), endP := some (400, 300),
        is_selecting := false, is_resizing := false, is_moving := false,
        resize_mode := none, region_selected := true, move_offset := none,
        last_adjust_mode := Mode.tl, capture_history := [],
        capture_history_index := -1, show_info := true,
        is_active := true } Arrow.left) =
      some (arrowQuad Mode.tl (min 100 400) (min 100 300) (max 100 400)
        (max 100 300) (arrowDelta Arrow.left).1 (arrowDelta Arrow.left).2) :=
  ⟨C7_amended_arrow_nudge.1 _ Arrow.left rfl rfl,
   ((C7_amended_arrow_nudge.2.2.2.2.1 _ Arrow.left Mode.tl 100 100 400 300
      rfl rfl rfl rfl (by decide)).2 (by decide)).1⟩

theorem max_sub_min_eq_abs (a b : Int) : max a b - min a b = |b - a| := by
  rcases le_total a b with h | h
  · rw [abs_of_nonneg (by omega), max_eq_right h, min_eq_left h]
  · rw [abs_of_nonpos (by omega), max_eq_left h, min_eq_right h]
    ring

theorem sizeInv_of_fields {s t : AppState}
    (hh : t.capture_history = s.capture_history)
    (hi : t.capture_history_index = s.capture_history_index)
    (hsp : t.startP = s.startP) (hep : t.endP = s.endP)
    (hsel : t.region_selected = s.region_selected)
    (hsg : t.is_selecting = s.is_selecting)
    (h : sizeInv s) : sizeInv t := by
  obtain ⟨h1, h2, h3, h4, h5, h6⟩ := h
  refine ⟨?_, ?_, ?_, ?_, ?_, ?_⟩
  · intro q hq
    rw [hh] at hq
    exact h1 q hq
  · intro hr sx sy ex ey hsx hex
    rw [hsp] at hsx
    rw [hep] at hex
    rw [hsel] at hr
    exact h2 hr sx sy ex ey hsx hex
  · intro ha hb
    rw [hsg] at ha
    rw [hsp] at hb
    rw [hsel]
    exact h3 ha hb
  · intro ha
    rw [hsp] at ha
    rw [hep]
    exact h4 ha
  · intro ha
    rw [hsg] at ha
    rw [hsel]
    exact h5 ha
  · exact cursorOK_of_eq_hist hh hi h6

theorem restore_snd_true {s : AppState} (h : s.capture_history ≠ []) :
    (restore_last_capture s).2 = true := by
  unfold restore_last_capture
  rw [if_neg h]

theorem restore_snd_false {s : AppState} (h : s.capture_history = []) :
    restore_last_capture s = (s, false) := by
  unfold restore_last_capture
  rw [if_pos h]

/-- Loading a valid history entry as the active selected region preserves
the invariant. -/
theorem sizeInv_load (s : AppState) (idx : Int)
    (hvalid : 0 ≤ idx ∧ idx < (s.capture_history.length : Int))
    (h : sizeInv s) :
    sizeInv { s with capture_history_index := idx,
                     startP := some
                       ((s.capture_history.getD idx.toNat (0, 0, 0, 0)).1,
                        (s.capture_history.getD idx.toNat (0, 0, 0, 0)).2.1),
                     endP := some
                       ((s.capture_history.getD idx.toNat (0, 0, 0, 0)).2.2.1,
                        (s.capture_history.getD idx.toNat (0, 0, 0, 0)).2.2.2),
                     region_selected := true,
                     is_selecting := false } := by
  obtain ⟨h1, h2, h3, h4, h5, h6⟩ := h
  have hlt : idx.toNat < s.capture_history.length := by omega
  have hmem : s.capture_history.getD idx.toNat (0, 0, 0, 0) ∈
      s.capture_history := getD_mem_of_lt hlt
  have hq := h1 _ hmem
  obtain ⟨hq1, hq2⟩ := hq
  refine ⟨?_, ?_, ?_, ?_, ?_, ?_⟩
  · intro q hq
    exact h1 q hq
  · intro _ sx sy ex ey hsx hex
    simp only [Option.some.injEq, Prod.mk.injEq] at hsx hex
    obtain ⟨rfl, rfl⟩ := hsx
    obtain ⟨rfl, rfl⟩ := hex
    constructor
    · rw [abs_of_nonneg (by omega)]
      omega
    · rw [abs_of_nonneg (by omega)]
      omega
  · intro _ _
    rfl
  · intro _
    simp
  · intro ha
    exact absurd ha (by simp)
  · right
    constructor <;> simp <;> omega

/-- `restore_last_capture` preserves the invariant. -/
theorem sizeInv_restore (s : AppState) (h : sizeInv s) :
    sizeInv (restore_last_capture s).1 := by
  by_cases hne : s.capture_history = []
  · rw [restore_snd_false hne]
    exact h
  · unfold restore_last_capture
    rw [if_neg hne]
    have h6 := h.2.2.2.2.2
    have hpos : 0 < s.capture_history.length := List.length_pos.mpr hne
    apply sizeInv_load s _ ?_ h
    rcases h6 with h6 | h6 <;>
      · constructor <;> split <;> omega

/-- `go_to_previous_capture` preserves the invariant. -/
theorem sizeInv_prev (s : AppState) (h : sizeInv s) :
    sizeInv (go_to_previous_capture s) := by
  by_cases hne : s.capture_history = []
  · unfold go_to_previous_capture
    rw [if_pos hne]
    exact h
  · unfold go_to_previous_capture
    rw [if_neg hne]
    have h6 := h.2.2.2.2.2
    have hpos : 0 < s.capture_history.length := List.length_pos.mpr hne
    apply sizeInv_load s _ ?_ h
    rcases h6 with h6 | h6 <;>
      · constructor <;> (repeat' split) <;> omega

/-- `go_to_next_capture` preserves the invariant. -/
theorem sizeInv_next (s : AppState) (h : sizeInv s) :
    sizeInv (go_to_next_capture s) := by
  by_cases hne : s.capture_history = []
  · unfold go_to_next_capture
    rw [if_pos hne]
    exact h
  · unfold go_to_next_capture
    rw [if_neg hne]
    have h6 := h.2.2.2.2.2
    have hpos : 0 < s.capture_history.length := List.length_pos.mpr hne
    apply sizeInv_load s _ ?_ h
    rcases h6 with h6 | h6 <;>
      · constructor <;> (repeat' split) <;> omega

theorem sizeInv_resize (s : AppState) (x y : Int) (h : sizeInv s) :
    sizeInv (resize_selection s x y) := by
  obtain ⟨h1, h2, h3, h4, h5, h6⟩ := h
  unfold resize_selection
  split
  · exact ⟨h1, h2, h3, h4, h5, h6⟩
  · rename_i m hm
    rcases hs : s.startP with _ | ⟨sx, sy⟩
    · simp only [hs]
      exact ⟨h1, h2, h3, h4, h5, h6⟩
    rcases he : s.endP with _ | ⟨ex, ey⟩
    · simp only [hs, he]
      exact ⟨h1, h2, h3, h4, h5, h6⟩
    simp only [hs, he]
    by_cases hcond :
        |(if movesX2 m then x else max sx ex)
          - (if movesX1 m then x else min sx ex)| < 10 ∨
        |(if movesY2 m then y else max sy ey)
          - (if movesY1 m then y else min sy ey)| < 10
    · rw [if_pos hcond]
      exact ⟨h1, h2, h3, h4, h5, h6⟩
    · rw [if_neg hcond]
      push_neg at hcond
      obtain ⟨hg1, hg2⟩ := hcond
      refine ⟨h1, ?_, ?_, ?_, ?_, h6⟩
      · intro _ a b c d hsx hex
        simp only [Option.some.injEq, Prod.mk.injEq] at hsx hex
        obtain ⟨rfl, rfl⟩ := hsx
        obtain ⟨rfl, rfl⟩ := hex
        exact ⟨hg1, hg2⟩
      · intro ha _
        exact h3 ha (by rw [hs]; simp)
      · intro _
        simp
      · intro ha
        exact h5 ha

theorem sizeInv_move (s : AppState) (x y : Int) (h : sizeInv s) :
    sizeInv (move_selection s x y) := by
  obtain ⟨h1, h2, h3, h4, h5, h6⟩ := h
  unfold move_selection
  split
  · exact ⟨h1, h2, h3, h4, h5, h6⟩
  · rcases hs : s.startP with _ | ⟨sx, sy⟩ <;>
      rcases he : s.endP with _ | ⟨ex, ey⟩ <;>
      rcases ho : s.move_offset with _ | ⟨ox, oy⟩ <;>
      simp only [hs, he, ho]
    · exact ⟨h1, h2, h3, h4, h5, h6⟩
    · exact ⟨h1, h2, h3, h4, h5, h6⟩
    · exact ⟨h1, h2, h3, h4, h5, h6⟩
    · exact ⟨h1, h2, h3, h4, h5, h6⟩
    · exact ⟨h1, h2, h3, h4, h5, h6⟩
    · exact ⟨h1, h2, h3, h4, h5, h6⟩
    · exact ⟨h1, h2, h3, h4, h5, h6⟩
    · refine ⟨h1, ?_, ?_, ?_, ?_, h6⟩
      · intro hr a b c d hsx hex
        simp only [Option.some.injEq, Prod.mk.injEq] at hsx hex
        obtain ⟨rfl, rfl⟩ := hsx
        obtain ⟨rfl, rfl⟩ := hex
        obtain ⟨hw, hh2⟩ := h2 hr sx sy ex ey hs he
        constructor
        · have e1 : x - ox + |ex - sx| - (x - ox) = |ex - sx| := by ring
          rw [e1, abs_abs]
          exact hw
        · have e2 : y - oy + |ey - sy| - (y - oy) = |ey - sy| := by ring
          rw [e2, abs_abs]
          exact hh2
      · intro ha _
        exact h3 ha (by rw [hs]; simp)
      · intro _
        simp
      · intro ha
        exact h5 ha

theorem sizeInv_mouse_down (s : AppState) (x y : Int) (h : sizeInv s) :
    sizeInv (on_mouse_down s x y) := by
  unfold on_mouse_down
  split
  · split
    · exact sizeInv_of_fields rfl rfl rfl rfl rfl rfl h
    · exact h
  · exact sizeInv_of_fields rfl rfl rfl rfl rfl rfl h
  · obtain ⟨h1, h2, h3, h4, h5, h6⟩ := h
    refine ⟨h1, ?_, ?_, ?_, ?_, h6⟩
    · intro hr
      exact absurd hr (by simp)
    · intro ha _
      exact absurd ha (by simp)
    · intro _
      simp
    · intro _
      rfl

theorem sizeInv_mouse_drag (s : AppState) (x y : Int) (h : sizeInv s) :
    sizeInv (on_mouse_drag s x y) := by
  unfold on_mouse_drag
  split
  · rename_i hc
    obtain ⟨h1, h2, h3, h4, h5, h6⟩ := h
    have hrs : s.region_selected = false := h5 hc
    refine ⟨h1, ?_, ?_, ?_, ?_, h6⟩
    · intro hr
      exact absurd hr (by simp [hrs])
    · intro ha
      exact absurd ha (by simp [hc])
    · intro _
      simp
    · intro _
      simpa using hrs
  · split
    · exact sizeInv_resize s x y h
    · split
      · exact sizeInv_move s x y h
      · exact h

theorem sizeInv_mouse_up (s : AppState) (x y : Int) (h : sizeInv s) :
    sizeInv (on_mouse_up s x y) := by
  obtain ⟨h1, h2, h3, h4, h5, h6⟩ := h
  unfold on_mouse_up
  split
  · rcases hs : s.startP with _ | ⟨sx, sy⟩
    · simp only [hs]
      refine ⟨h1, ?_, ?_, ?_, ?_, h6⟩
      · intro _ a b c d hsx _
        simp [hs] at hsx
      · intro _ hb
        exact absurd (by simp [hs]) hb
      · intro _
        simp
      · intro ha
        exact absurd ha (by simp)
    · simp only [hs]
      split
      · rename_i hlt
        refine ⟨h1, ?_, ?_, ?_, ?_, h6⟩
        · intro hr
          exact absurd hr (by simp)
        · intro _ hb
          exact absurd (by simp) hb
        · intro _
          simp
        · intro ha
          exact absurd ha (by simp)
      · rename_i hge
        push_neg at hge
        refine ⟨h1, ?_, ?_, ?_, ?_, h6⟩
        · intro _ a b c d hsx hex
          simp only [Option.some.injEq, Prod.mk.injEq] at hsx hex
          obtain ⟨rfl, rfl⟩ := hsx
          obtain ⟨rfl, rfl⟩ := hex
          exact ⟨hge.1, hge.2⟩
        · intro _ _
          rfl
        · intro _
          simp
        · intro ha
          exact absurd ha (by simp)
  · split
    · exact sizeInv_of_fields rfl rfl rfl rfl rfl rfl
        ⟨h1, h2, h3, h4, h5, h6⟩
    · split
      · exact sizeInv_of_fields rfl rfl rfl rfl rfl rfl
          ⟨h1, h2, h3, h4, h5, h6⟩
      · exact ⟨h1, h2, h3, h4, h5, h6⟩

theorem sizeInv_arrowAdjust (s : AppState) (k : Arrow) (h : sizeInv s) :
    sizeInv (arrowAdjust s k) := by
  obtain ⟨h1, h2, h3, h4, h5, h6⟩ := h
  unfold arrowAdjust
  rcases hs : s.startP with _ | ⟨sx, sy⟩
  · simp only [hs]
    exact ⟨h1, h2, h3, h4, h5, h6⟩
  rcases he : s.endP with _ | ⟨ex, ey⟩
  · simp only [hs, he]
    exact ⟨h1, h2, h3, h4, h5, h6⟩
  simp only [hs, he]
  split
  · exact ⟨h1, h2, h3, h4, h5, h6⟩
  · rename_i hcond
    refine ⟨h1, ?_, ?_, ?_, ?_, h6⟩
    · intro hr a b c d hsx hex
      simp only [Option.some.injEq, Prod.mk.injEq] at hsx hex
      obtain ⟨rfl, rfl⟩ := hsx
      obtain ⟨rfl, rfl⟩ := hex
      by_cases hmi : s.last_adjust_mode = Mode.inside
      · obtain ⟨hw, hh2⟩ := h2 hr sx sy ex ey hs he
        rw [hmi]
        dsimp only [arrowQuad]
        constructor
        · have e1 : max sx ex + (arrowDelta k).1
              - (min sx ex + (arrowDelta k).1) = max sx ex - min sx ex := by
            ring
          rw [e1, max_sub_min_eq_abs, abs_abs]
          exact hw
        · have e2 : max sy ey + (arrowDelta k).2
              - (min sy ey + (arrowDelta k).2) = max sy ey - min sy ey := by
            ring
          rw [e2, max_sub_min_eq_abs, abs_abs]
          exact hh2
      · constructor
        · exact not_lt.mp fun hc => hcond ⟨hmi, Or.inl hc⟩
        · exact not_lt.mp fun hc => hcond ⟨hmi, Or.inr hc⟩
    · intro ha _
      exact h3 ha (by rw [hs]; simp)
    · intro _
      simp
    · intro ha
      exact h5 ha

theorem sizeInv_arrow (s : AppState) (k : Arrow) (h : sizeInv s) :
    sizeInv (on_arrow_key s k) := by
  unfold on_arrow_key
  split
  · exact sizeInv_arrowAdjust s k h
  · dsimp only
    split
    · exact sizeInv_arrowAdjust _ k (sizeInv_restore s h)
    · exact h

theorem sizeInv_commit (s : AppState) (hsafe : s.is_selecting = false)
    (h : sizeInv s) : sizeInv (save_current_capture_position s) := by
  obtain ⟨h1, h2, h3, h4, h5, h6⟩ := h
  unfold save_current_capture_position
  rcases hs : s.startP with _ | ⟨sx, sy⟩
  · simp only [hs]
    exact ⟨h1, h2, h3, h4, h5, h6⟩
  rcases he : s.endP with _ | ⟨ex, ey⟩
  · exact absurd he (h4 (by rw [hs]; simp))
  simp only [hs, he]
  have hsel : s.region_selected = true := h3 hsafe (by rw [hs]; simp)
  obtain ⟨hw, hh2⟩ := h2 hsel sx sy ex ey hs he
  have hqok : entryMinOK (normQuad sx sy ex ey) := by
    unfold entryMinOK normQuad
    dsimp only
    constructor
    · rw [max_sub_min_eq_abs]
      exact hw
    · rw [max_sub_min_eq_abs]
      exact hh2
  rcases hidx : indexOfQ (normQuad sx sy ex ey) s.capture_history with _ | i <;>
    simp only [hidx]
  · refine ⟨?_, ?_, ?_, ?_, ?_, ?_⟩
    · intro q hq
      rcases List.mem_append.mp hq with hq | hq
      · exact h1 q hq
      · rw [List.mem_singleton.mp hq]
        exact hqok
    · intro _ a b c d hsx hex
      simp only [Option.some.injEq, Prod.mk.injEq] at hsx hex
      obtain ⟨rfl, rfl⟩ := hsx
      obtain ⟨rfl, rfl⟩ := hex
      exact ⟨hw, hh2⟩
    · intro _ _
      exact hsel
    · intro _
      simp
    · intro ha
      exact h5 ha
    · right
      refine ⟨Int.ofNat_nonneg _, ?_⟩
      simp only [List.length_append, List.length_cons, List.length_nil]
      omega
  · refine ⟨h1, ?_, ?_, ?_, ?_, ?_⟩
    · intro _ a b c d hsx hex
      simp only [Option.some.injEq, Prod.mk.injEq] at hsx hex
      obtain ⟨rfl, rfl⟩ := hsx
      obtain ⟨rfl, rfl⟩ := hex
      exact ⟨hw, hh2⟩
    · intro _ _
      exact hsel
    · intro _
      simp
    · intro ha
      exact h5 ha
    · right
      have hlt := indexOfQ_some_lt hidx
      refine ⟨Int.ofNat_nonneg _, ?_⟩
      show (i : Int) < (s.capture_history.length : Int)
      exact_mod_cast hlt

theorem sizeInv_commitAndFinish (s : AppState) (hsafe : s.is_selecting = false)
    (h : sizeInv s) : sizeInv (commitAndFinish s).state := by
  unfold commitAndFinish
  rcases hs : s.startP with _ | ⟨sx, sy⟩ <;>
    rcases he : s.endP with _ | ⟨ex, ey⟩ <;> simp only [hs, he]
  · exact h
  · exact h
  · exact h
  · exact sizeInv_of_fields rfl rfl rfl rfl rfl rfl (sizeInv_commit s hsafe h)

theorem restore_fst_not_selecting (s : AppState)
    (hne : s.capture_history ≠ []) :
    (restore_last_capture s).1.is_selecting = false := by
  unfold restore_last_capture
  rw [if_neg hne]

theorem sizeInv_save (s : AppState) (hsafe : s.is_selecting = false)
    (h : sizeInv s) : sizeInv (save_screenshot s).state := by
  unfold save_screenshot
  split
  · dsimp only
    split
    · exact h
    · rename_i hr2
      have hne : s.capture_history ≠ [] := by
        intro hemp
        rw [restore_snd_false hemp] at hr2
        simp at hr2
      exact sizeInv_commitAndFinish _ (restore_fst_not_selecting s hne)
        (sizeInv_restore s h)
  · exact sizeInv_commitAndFinish s hsafe h

theorem sizeInv_copy (s : AppState) (hsafe : s.is_selecting = false)
    (h : sizeInv s) : sizeInv (copy_to_clipboard s).state := by
  unfold copy_to_clipboard
  split
  · dsimp only
    split
    · exact sizeInv_of_fields rfl rfl rfl rfl rfl rfl h
    · rename_i hr2
      have hne : s.capture_history ≠ [] := by
        intro hemp
        rw [restore_snd_false hemp] at hr2
        simp at hr2
      exact sizeInv_commitAndFinish _ (restore_fst_not_selecting s hne)
        (sizeInv_restore s h)
  · exact sizeInv_commitAndFinish s hsafe h

theorem sizeInv_activate (s : AppState) (h : sizeInv s) :
    sizeInv (activate_capture_mode s) := by
  unfold activate_capture_mode
  split
  · exact h
  · obtain ⟨h1, h2, h3, h4, h5, h6⟩ := h
    refine ⟨h1, ?_, ?_, ?_, ?_, h6⟩
    · intro hr
      exact absurd hr (by simp)
    · intro _ hb
      exact absurd rfl hb
    · intro hb
      exact absurd rfl hb
    · intro ha
      exact absurd ha (by simp)

theorem sizeInv_step (s : AppState) (e : Event)
    (hg : (e = Event.enter ∨ e = Event.escape) → s.is_selecting = false)
    (h : sizeInv s) : sizeInv (step s e) := by
  cases e with
  | activate =>
    simp only [step]
    exact sizeInv_activate s h
  | mouseDown x y =>
    simp only [step]
    split
    · exact sizeInv_mouse_down s x y h
    · exact h
  | mouseDrag x y =>
    simp only [step]
    split
    · exact sizeInv_mouse_drag s x y h
    · exact h
  | mouseUp x y =>
    simp only [step]
    split
    · exact sizeInv_mouse_up s x y h
    · exact h
  | arrow k =>
    simp only [step]
    split
    · exact sizeInv_arrow s k h
    · exact h
  | backspace =>
    simp only [step]
    split
    · exact sizeInv_prev s h
    · exact h
  | tab =>
    simp only [step]
    split
    · exact sizeInv_next s h
    · exact h
  | enter =>
    simp only [step]
    split
    · exact sizeInv_save s (hg (Or.inl rfl)) h
    · exact h
  | escape =>
    simp only [step]
    split
    · exact sizeInv_copy s (hg (Or.inr rfl)) h
    · exact h
  | toggleInfo =>
    simp only [step]
    split
    · exact sizeInv_of_fields rfl rfl rfl rfl rfl rfl h
    · exact h
  | restore =>
    simp only [step]
    split
    · exact sizeInv_restore s h
    · exact h

theorem sizeInv_run (es : List Event) :
    ∀ s, sizeInv s → commitsSafe s es = true → sizeInv (run s es) := by
  induction es with
  | nil =>
    intro s h _
    exact h
  | cons e rest ih =>
    intro s h hsafe
    unfold commitsSafe at hsafe
    rw [Bool.and_eq_true] at hsafe
    obtain ⟨hg, hrest⟩ := hsafe
    refine ih (step s e) (sizeInv_step s e ?_ h) hrest
    intro he
    by_contra hsel
    have hsel' : s.is_selecting = true := by
      cases hval : s.is_selecting
      · exact absurd hval hsel
      · rfl
    rw [if_pos ⟨he, hsel'⟩] at hg
    exact Bool.false_ne_true hg

theorem sizeInv_initial : sizeInv initialState := by
  refine ⟨?_, ?_, ?_, ?_, ?_, Or.inl rfl⟩
  · intro q hq
    simp [initialState] at hq
  · intro hr
    exact absurd hr (by simp [initialState])
  · intro _ hb
    exact absurd rfl hb
  · intro hb
    exact absurd rfl hb
  · intro ha
    exact absurd ha (by simp [initialState])

/-- Counterexample to C2 as stated: pressing Enter while a selection drag
is in progress commits the in-progress rectangle; after dragging from
(0,0) to (5,20) the history receives (0,0,5,20), whose width 5 is below
the minimum 10. -/
theorem C2_counterexample :
    (run initialState
      [Event.activate, Event.restore, Event.mouseDown 0 0,
       Event.mouseDrag 5 20, Event.enter]).capture_history
      = [(0, 0, 5, 20)] ∧ ((5 : Int) - 0 < 10) :=
  ⟨by decide, by decide⟩

/-- C2 (amended): along every trace in which Enter/Escape never fire
during an in-progress selection drag, no Region committed to history has
normalized width or height below 10; a Selecting release below the
minimum discards the selection and leaves the history alone; a resize or
handle-nudge whose result would fall below the minimum is a no-op.  (A
commit fired mid-drag can record an undersized Region — see
`C2_counterexample` — hence the commit-safety guard.) -/
theorem C2_amended_min_size :
    (∀ es : List Event, commitsSafe initialState es = true →
        ∀ q ∈ (run initialState es).capture_history, entryMinOK q) ∧
    (∀ (s : AppState) (x y sx sy : Int), s.is_selecting = true →
        s.startP = some (sx, sy) → (|x - sx| < 10 ∨ |y - sy| < 10) →
        (on_mouse_up s x y).startP = none ∧
        (on_mouse_up s x y).region_selected = false ∧
        (on_mouse_up s x y).capture_history = s.capture_history) ∧
    (∀ (s : AppState) (x y : Int) (m : Mode) (sx sy ex ey : Int),
        s.resize_mode = some m → s.startP = some (sx, sy) →
        s.endP = some (ex, ey) →
        (|(if movesX2 m then x else max sx ex)
            - (if movesX1 m then x else min sx ex)| < 10 ∨
         |(if movesY2 m then y else max sy ey)
            - (if movesY1 m then y else min sy ey)| < 10) →
        resize_selection s x y = s) ∧
    (∀ (s : AppState) (k : Arrow) (m : Mode) (sx sy ex ey : Int),
        s.region_selected = true → s.startP = some (sx, sy) →
        s.endP = some (ex, ey) → s.last_adjust_mode = m →
        m ≠ Mode.inside →
        (|(arrowQuad m (min sx ex) (min sy ey) (max sx ex) (max sy ey)
             (arrowDelta k).1 (arrowDelta k).2).2.2.1
           - (arrowQuad m (min sx ex) (min sy ey) (max sx ex) (max sy ey)
             (arrowDelta k).1 (arrowDelta k).2).1| < 10 ∨
         |(arrowQuad m (min sx ex) (min sy ey) (max sx ex) (max sy ey)
             (arrowDelta k).1 (arrowDelta k).2).2.2.2
           - (arrowQuad m (min sx ex) (min sy ey) (max sx ex) (max sy ey)
             (arrowDelta k).1 (arrowDelta k).2).2.1| < 10) →
        on_arrow_key s k = s) := by
  refine ⟨?_, ?_, ?_, ?_⟩
  · intro es hsafe q hq
    exact (sizeInv_run es initialState sizeInv_initial hsafe).1 q hq
  · intro s x y sx sy hc hs hlt
    unfold on_mouse_up
    rw [if_pos hc]
    simp only [hs]
    rw [if_pos hlt]
    exact ⟨rfl, rfl, rfl⟩
  · intro s x y m sx sy ex ey hm hs he hlt
    unfold resize_selection
    simp only [hm, hs, he]
    rw [if_pos hlt]
  · intro s k m sx sy ex ey hsel hs he hm hne hlt
    have hred : on_arrow_key s k = arrowAdjust s k := by
      simp [on_arrow_key, hsel]
    rw [hred]
    unfold arrowAdjust
    simp only [hs, he, hm]
    rw [if_pos ⟨hne, hlt⟩]

/-- Witness for C2 (amended): a committed 100×100 entry respects the
minimum; a 3×3 release discards; a resize of (0,0,100,100) via `left` to
x = 95 is a no-op; a right-nudge of the 10-wide (0,0,10,30) via `left`
is a no-op. -/
theorem C2_amended_min_size_witness :
    entryMinOK (0, 0, 100, 100) ∧
    (on_mouse_up
      { startP := some (0, 0), endP := some (0, 0), is_selecting := true,
        is_resizing := false, is_moving := false, resize_mode := none,
        region_selected := false, move_offset := none,
        last_adjust_mode := Mode.inside, capture_history := [],
        capture_history_index := -1, show_info := true,
        is_active := true } 3 3).startP = none ∧
    resize_selection
      { startP := some (0, 0), endP := some (100, 100),
        is_selecting := false, is_resizing := true, is_moving := false,
        resize_mode := some Mode.left, region_selected := true,
        move_offset := none, last_adjust_mode := Mode.left,
        capture_history := [], capture_history_index := -1,
        show_info := true, is_active := true } 95 50 =
      { startP := some (0, 0), endP := some (100, 100),
        is_selecting := false, is_resizing := true, is_moving := false,
        resize_mode := some Mode.left, region_selected := true,
        move_offset := none, last_adjust_mode := Mode.left,
        capture_history := [], capture_history_index := -1,
        show_info := true, is_active := true } ∧
    on_arrow_key
      { startP := some (0, 0), endP := some (10, 30),
        is_selecting := false, is_resizing := false, is_moving := false,
        resize_mode := none, region_selected := true, move_offset := none,
        last_adjust_mode := Mode.left, capture_history := [],
        capture_history_index := -1, show_info := true,
        is_active := true } Arrow.right =
      { startP := some (0, 0), endP := some (10, 30),
        is_selecting := false, is_resizing := false, is_moving := false,
        resize_mode := none, region_selected := true, move_offset := none,
        last_adjust_mode := Mode.left, capture_history := [],
        capture_history_index := -1, show_info := true,
        is_active := true } :=
  ⟨C2_amended_min_size.1
      [Event.activate, Event.mouseDown 0 0, Event.mouseDrag 100 100,
       Event.mouseUp 100 100, Event.enter] (by decide)
      (0, 0, 100, 100) (by decide),
   (C2_amended_min_size.2.1 _ 3 3 0 0 rfl rfl (by decide)).1,
   C2_amended_min_size.2.2.1 _ 95 50 Mode.left 0 0 100 100 rfl rfl rfl
     (by decide),
   C2_amended_min_size.2.2.2 _ Arrow.right Mode.left 0 0 10 30 rfl rfl rfl
     rfl (by decide) (by decide)⟩

end ScreenCapture
